import Mathlib

/-!
# Aetherloops audio engine — verification of the routing/modulation core

A shallow embedding of `src/services/audioEngine.ts` (class `AudioEngine`).
Web-Audio `AudioParam` automation is modelled by the *target* value most
recently scheduled on the parameter (`setTargetAtTime(v, t, τ)` drives the
parameter toward `v`); where a claim is about the continuously evaluated
value we model the exponential-approach semantics explicitly over `ℝ`.
JS numbers are modelled by `ℚ` (the constants involved are exact in
binary64, so the arithmetic of the mapping laws is faithful).
-/

namespace Aetherloops

/-- `LFOConfig` from `src/types.ts`. -/
structure LFOConfig where
  enabled : Bool
  rate : ℚ
  depth : ℚ
  deriving Repr, DecidableEq

/-- `TrackData` from `src/types.ts`, restricted to the fields the audio
engine reads.  `buffer` records whether `track.buffer` is non-null;
`feedbackTargetId` is `none` when the property is `undefined` (legacy
presets), mirroring the `rawTarget !== undefined` check in
`updateTrackParams`. -/
structure TrackData where
  id : ℕ
  buffer : Bool
  isPlaying : Bool
  isMuted : Bool
  isSolo : Bool
  volume : ℚ
  pan : ℚ
  playbackRate : ℚ
  eqLow : ℚ
  eqMid : ℚ
  eqHigh : ℚ
  lfoVol : LFOConfig
  lfoPan : LFOConfig
  lfoPitch : LFOConfig
  driftEnabled : Bool
  linkNext : Bool
  crossfadeSpeed : ℚ
  reverbSend : ℚ
  granularSpray : ℚ
  feedbackSend : ℚ
  feedbackTargetId : Option ℤ
  deriving Repr, DecidableEq

/-! ## EQ mapping (`updateTrackEQ`)

```js
const mapGain = (val) => {
    if (val <= 0.5) { return -40 + (val * 2 * 40); }
    else            { return (val - 0.5) * 2 * 12; }
};
```
The same `mapGain` is applied to `track.eqLow`, `track.eqMid`,
`track.eqHigh` (targets of the three filter-gain parameters). -/

/-- `mapGain` from `updateTrackEQ`. -/
def mapGain (val : ℚ) : ℚ :=
  if val ≤ 1/2 then -40 + val * 2 * 40 else (val - 1/2) * 2 * 12

/-- The three per-band EQ gain targets scheduled by `updateTrackEQ`. -/
def updateTrackEQ (track : TrackData) : ℚ × ℚ × ℚ :=
  (mapGain track.eqLow, mapGain track.eqMid, mapGain track.eqHigh)

/-! ## Feedback router (step 7 of `updateTrackParams`)

```js
try { nodes.feedbackGain.disconnect(); nodes.feedbackFMGain.disconnect(); } catch(e) {}
const rawTarget = track.feedbackTargetId;
const targetId = (rawTarget !== undefined) ? rawTarget : (track.id + 1) % 8;
if (targetId !== -1) {
    const targetNodes = this.tracks.get(targetId);
    if (targetNodes) {
        const feedbackAmt = track.feedbackSend * 3000;
        nodes.feedbackGain.gain.setTargetAtTime(feedbackAmt, now, 0.1);
        let fmAmt = 0;
        if (track.feedbackSend > 0.5) { fmAmt = (track.feedbackSend - 0.5) * 4.0; }
        nodes.feedbackFMGain.gain.setTargetAtTime(fmAmt, now, 0.1);
        if (track.feedbackSend > 0.01) {
            nodes.feedbackGain.connect(targetNodes.eqMid.frequency);
            if (fmAmt > 0 && targetNodes.source) {
               nodes.feedbackFMGain.connect(targetNodes.source.playbackRate);
            }
        }
    }
} else {
    nodes.feedbackGain.gain.setTargetAtTime(0, now, 0.1);
    nodes.feedbackFMGain.gain.setTargetAtTime(0, now, 0.1);
}
```
-/

/-- State of a track's two feedback-send gains: the last scheduled gain
targets, and the id of the track whose parameter each gain is currently
connected to (`none` = disconnected). -/
structure FeedbackState where
  gainTarget : ℚ
  fmTarget : ℚ
  conn : Option ℤ
  fmConn : Option ℤ
  deriving Repr, DecidableEq

/-- Feedback-send gains as initialized by `initTrack`
(`feedbackGain.gain.value = 0`, `feedbackFMGain.gain.value = 0`,
no connections). -/
def fbInit : FeedbackState := { gainTarget := 0, fmTarget := 0, conn := none, fmConn := none }

/-- Target-id resolution from step 7 of `updateTrackParams`:
`(rawTarget !== undefined) ? rawTarget : (track.id + 1) % 8`. -/
def resolveFeedbackTarget (track : TrackData) : ℤ :=
  match track.feedbackTargetId with
  | some t => t
  | none => ((track.id : ℤ) + 1) % 8

/-- The FM (playback-rate) deviation amount `fmAmt` of step 7. -/
def fmAmount (feedbackSend : ℚ) : ℚ :=
  if feedbackSend > 1/2 then (feedbackSend - 1/2) * 4 else 0

/-- Step 7 of `updateTrackParams` as a transformer of the track's
feedback-send state.  `targetExists id` models `this.tracks.get(id)`
returning a node record, `targetHasSource id` models
`targetNodes.source` being non-null. -/
def updateFeedback (track : TrackData) (targetExists targetHasSource : ℤ → Bool)
    (prev : FeedbackState) : FeedbackState :=
  let s0 : FeedbackState := { prev with conn := none, fmConn := none }
  let targetId := resolveFeedbackTarget track
  if targetId ≠ -1 then
    if targetExists targetId then
      let feedbackAmt := track.feedbackSend * 3000
      let fmAmt := fmAmount track.feedbackSend
      let s1 := { s0 with gainTarget := feedbackAmt, fmTarget := fmAmt }
      if track.feedbackSend > 1/100 then
        { s1 with
            conn := some targetId,
            fmConn := if fmAmt > 0 ∧ targetHasSource targetId then some targetId else none }
      else s1
    else s0
  else
    { s0 with gainTarget := 0, fmTarget := 0 }

/-! ## Engine state

The mutable per-track node graph (`TrackNodes`) and the `AudioEngine`
operations `initTrack` / `playTrack` / `stopTrack` / `updateTrackParams`.
Automation-scheduled `AudioParam`s are modelled by the most recently
scheduled target value; node connections by explicit Boolean/`Option`
fields.  The deferred `oldSource.stop()` that `stopTrack` schedules with
`setTimeout(…, 100)` is modelled by marking the ledger entry of the
detached source `stopRequested`. -/

/-- An `AudioBufferSourceNode` created by `playTrack`: `sid` identifies
the node, `rate` is the last scheduled `playbackRate` target, `loop`
mirrors `source.loop = true`. -/
structure SourceNode where
  sid : ℕ
  rate : ℚ
  loop : Bool
  deriving Repr, DecidableEq

/-- Ledger entry for each buffer source ever created and started. -/
structure SourceRec where
  sid : ℕ
  trackId : ℕ
  stopRequested : Bool
  deriving Repr, DecidableEq

/-- An LFO `OscillatorNode` (`lfoVol`/`lfoPan`/`lfoPitch`). -/
structure LFONode where
  started : Bool
  connectedToGain : Bool
  freqTarget : ℚ
  deriving Repr, DecidableEq

/-- An LFO scaling `GainNode` (`lfoVolGain`/`lfoPanGain`/`lfoPitchGain`);
`connected` records whether its output is connected to the slot's target
parameter. -/
structure LFOGainNode where
  gainTarget : ℚ
  connected : Bool
  deriving Repr, DecidableEq

/-- One LFO slot of `TrackNodes`: the nullable oscillator/gain pair. -/
structure LFOSlot where
  osc : Option LFONode
  oscGain : Option LFOGainNode
  deriving Repr, DecidableEq

/-- LFO slot as set by `initTrack` (`lfoVol: null, lfoVolGain: null`, …). -/
def lfoSlotInit : LFOSlot := { osc := none, oscGain := none }

/-- `manageLFO(oscKey, gainKey, config, nodes, targetParam, depthScalar)`:

```js
if (config.enabled) {
    if (!nodes[oscKey]) {
        const osc = this.context.createOscillator();
        const gain = this.context.createGain();
        osc.type = 'sine'; osc.start(); osc.connect(gain);
        nodes[oscKey] = osc; nodes[gainKey] = gain;
    }
    osc.frequency.setTargetAtTime(config.rate, now, 0.1);
    gain.gain.setTargetAtTime(config.depth * depthScalar, now, 0.1);
    if (targetParam) { try { gain.disconnect(); gain.connect(targetParam); } catch(e) {} }
} else {
    if (nodes[oscKey]) {
        try { stop(); disconnect(); } catch(e) {}
        nodes[oscKey] = null; nodes[gainKey] = null;
    }
}
```

A fresh oscillator has the Web Audio default frequency 440 and a fresh
gain the default value 1, immediately retargeted below. -/
def manageLFO (config : LFOConfig) (targetPresent : Bool) (depthScalar : ℚ)
    (s : LFOSlot) : LFOSlot :=
  if config.enabled then
    let s :=
      if s.osc.isNone then
        { osc := some { started := true, connectedToGain := true, freqTarget := 440 }
          oscGain := some { gainTarget := 1, connected := false } }
      else s
    { osc := s.osc.map fun o => { o with freqTarget := config.rate }
      oscGain := s.oscGain.map fun g =>
        { gainTarget := config.depth * depthScalar
          connected := if targetPresent then true else g.connected } }
  else
    if s.osc.isSome then { osc := none, oscGain := none } else s

/-- The drift `OscillatorNode`; its frequency is randomized per
activation (`0.01 + Math.random() * 0.04`). -/
structure DriftLfoNode where
  freq : ℚ
  started : Bool
  connectedToGain : Bool
  deriving Repr, DecidableEq

/-- One `setTargetAtTime(target, setAt, timeConstant)` event. -/
structure ParamSchedule where
  target : ℚ
  timeConstant : ℚ
  setAt : ℚ
  deriving Repr, DecidableEq

/-- The drift scaling `GainNode`; `sched` is the last automation event on
its gain (`none` = still at the creation default 1). -/
structure DriftGainNode where
  sched : Option ParamSchedule
  connectedToVol : Bool
  deriving Repr, DecidableEq

/-- Drift generator state of a track; `teardowns` holds the firing times
of the pending `setTimeout(…, 2100)` teardown callbacks. -/
structure DriftState where
  lfo : Option DriftLfoNode
  gain : Option DriftGainNode
  teardowns : List ℚ
  deriving Repr, DecidableEq

/-- Drift state as set by `initTrack` (`driftLfo: null, driftGain: null`). -/
def driftInit : DriftState := { lfo := none, gain := none, teardowns := [] }

/-- `updateTrackDrift` (per-track part; `rand` is the `Math.random()`
draw used for the activation frequency).  On enable: lazily create and
start the generator, connect it through the scaling gain into
`volGain.gain`, and retarget the scaling gain to `0.3` with a 1 s time
constant.  On disable: retarget the scaling gain to `0` with a 2 s time
constant and schedule the teardown callback 2.1 s out. -/
def updateTrackDrift (driftEnabled : Bool) (now rand : ℚ) (d : DriftState) : DriftState :=
  if driftEnabled then
    let d :=
      if d.lfo.isNone then
        { d with
            lfo := some { freq := 1/100 + rand * (1/25), started := true, connectedToGain := true }
            gain := some { sched := none, connectedToVol := true } }
      else d
    { d with gain := d.gain.map fun g => { g with sched := some ⟨3/10, 1, now⟩ } }
  else
    if d.lfo.isSome then
      { d with
          gain := d.gain.map fun g => { g with sched := some ⟨0, 2, now⟩ }
          teardowns := d.teardowns ++ [now + 21/10] }
    else d

/-- The body of the drift teardown `setTimeout` callback: if the drift
oscillator still exists, stop it, disconnect oscillator and gain, and
null both references. -/
def fireDriftTeardown (d : DriftState) : DriftState :=
  if d.lfo.isSome then { lfo := none, gain := none, teardowns := d.teardowns } else d

/-- The crossfade bridge (`fadeOsc`, `fadeGainOsc` and the inverter
created by `updateCrossfade`):  `oscGainValue` is `fadeGainOsc.gain`,
`inverterGain` the inverter's gain, and the two connection flags record
the direct route into track A's `fadeGain.gain` and the inverted route
into track B's. -/
structure BridgeNodes where
  oscStarted : Bool
  oscFreqTarget : ℚ
  oscGainValue : ℚ
  inverterGain : ℚ
  connAdirect : Bool
  connBviaInverter : Bool
  deriving Repr, DecidableEq

/-- Per-track node record (`TrackNodes`), with gain/pan/filter
`AudioParam`s modelled by their last scheduled target, `fadeGainBase` the
bias value of `fadeGain.gain`. -/
structure TrackNodesM where
  source : Option SourceNode
  volGainTarget : ℚ
  muteGainTarget : ℚ
  panTarget : ℚ
  eqLowTarget : ℚ
  eqMidTarget : ℚ
  eqHighTarget : ℚ
  reverbSendTarget : ℚ
  sprayGainTarget : ℚ
  sprayConnectedToSource : Bool
  lfoVol : LFOSlot
  lfoPan : LFOSlot
  lfoPitch : LFOSlot
  drift : DriftState
  fadeOsc : Option BridgeNodes
  fadeGainBase : ℚ
  feedback : FeedbackState
  deriving Repr, DecidableEq

/-- The engine: the `tracks` map, the ledger of every source ever
started, the next fresh source id, and the context clock. -/
structure EngineState where
  tracks : ℕ → Option TrackNodesM
  sources : List SourceRec
  nextSid : ℕ
  now : ℚ

/-- `this.tracks.get(id)` for a JS-number id (negative ids are never in
the map). -/
def getTrack (st : EngineState) (i : ℤ) : Option TrackNodesM :=
  if 0 ≤ i then st.tracks i.toNat else none

/-- In-place mutation of one track's node record (a no-op when the id is
not in the map). -/
def modifyTrack (st : EngineState) (j : ℕ) (f : TrackNodesM → TrackNodesM) : EngineState :=
  match st.tracks j with
  | none => st
  | some n => { st with tracks := Function.update st.tracks j (some (f n)) }

/-- Step 2 of `updateTrackParams`:

```js
let isAudible = true;
if (track.isMuted) isAudible = false;
if (soloActive && !track.isSolo) isAudible = false;
```
-/
def isAudible (track : TrackData) (soloActive : Bool) : Bool :=
  let a := true
  let a := if track.isMuted then false else a
  if soloActive && !track.isSolo then false else a

/-- `updateTrackLFOs`: drive the three slots through `manageLFO` with the
fixed depth scalars 0.5 / 1.0 / 0.2; the pitch target parameter is the
active source's `playbackRate`, absent when nothing is playing. -/
def updateTrackLFOs (track : TrackData) (nodes : TrackNodesM) : TrackNodesM :=
  { nodes with
      lfoVol := manageLFO track.lfoVol true (1/2) nodes.lfoVol
      lfoPan := manageLFO track.lfoPan true 1 nodes.lfoPan
      lfoPitch := manageLFO track.lfoPitch nodes.source.isSome (1/5) nodes.lfoPitch }

/-- `playTrack`: returns unchanged unless the track is initialized, has
a buffer, and has no active source; otherwise creates, connects and
starts a fresh looping source, gates the mute stage to the snapshot's
mute flag, connects the pitch-LFO gain (if enabled) and the spray gain
into the new source's `playbackRate`. -/
def playTrack (st : EngineState) (track : TrackData) : EngineState :=
  match st.tracks track.id with
  | none => st
  | some nodes =>
    if !track.buffer then st
    else match nodes.source with
    | some _ => st
    | none =>
      let nodes :=
        { nodes with
            muteGainTarget := if track.isMuted then 0 else 1
            source := some { sid := st.nextSid, rate := track.playbackRate, loop := true }
            lfoPitch :=
              if track.lfoPitch.enabled then
                { nodes.lfoPitch with
                    oscGain := nodes.lfoPitch.oscGain.map fun g => { g with connected := true } }
              else nodes.lfoPitch
            sprayConnectedToSource := true }
      { st with
          tracks := Function.update st.tracks track.id (some nodes)
          sources := st.sources ++ [{ sid := st.nextSid, trackId := track.id, stopRequested := false }]
          nextSid := st.nextSid + 1 }

/-- `stopTrack`: a no-op when the id is not in the map or the track has
no active source; otherwise gates the mute stage to 0, detaches the
spray gain from the dying source, clears the `source` reference, and
schedules the deferred `stop()` (the ledger entry is marked
`stopRequested`). -/
def stopTrack (st : EngineState) (trackId : ℕ) : EngineState :=
  match st.tracks trackId with
  | none => st
  | some nodes =>
    match nodes.source with
    | none => st
    | some src =>
      let nodes :=
        { nodes with
            muteGainTarget := 0
            sprayConnectedToSource := false
            source := none }
      { st with
          tracks := Function.update st.tracks trackId (some nodes)
          sources := st.sources.map fun r =>
            if r.sid = src.sid then { r with stopRequested := true } else r }

/-- `updateCrossfade(trackA)`: entered only for even ids; creates the
bridge when `linkNext` holds and the successor exists (biasing both
crossfade gains at 0.5), always retargets the oscillator rate toward
`crossfadeSpeed`, and on unlink tears the bridge down and restores both
crossfade gains toward 1. -/
def updateCrossfade (st : EngineState) (trackA : TrackData) : EngineState :=
  match st.tracks trackA.id with
  | none => st
  | some nodesA =>
    let nodesB? := st.tracks (trackA.id + 1)
    if trackA.linkNext ∧ nodesB?.isSome then
      let created := nodesA.fadeOsc.isNone
      let nodesA :=
        if nodesA.fadeOsc.isNone then
          { nodesA with
              fadeOsc := some { oscStarted := true, oscFreqTarget := 440
                                oscGainValue := 1/2, inverterGain := -1
                                connAdirect := true, connBviaInverter := true }
              fadeGainBase := 1/2 }
        else nodesA
      let nodesA :=
        { nodesA with
            fadeOsc := nodesA.fadeOsc.map fun b => { b with oscFreqTarget := trackA.crossfadeSpeed } }
      let st1 := { st with tracks := Function.update st.tracks trackA.id (some nodesA) }
      if created then
        match nodesB? with
        | some nodesB =>
          let nodesB := { nodesB with fadeGainBase := (1 : ℚ)/2 }
          { st1 with tracks := Function.update st1.tracks (trackA.id + 1) (some nodesB) }
        | none => st1
      else st1
    else
      if nodesA.fadeOsc.isSome then
        let nodesA := { nodesA with fadeOsc := none, fadeGainBase := 1 }
        let st1 := { st with tracks := Function.update st.tracks trackA.id (some nodesA) }
        match nodesB? with
        | some nodesB =>
          let nodesB := { nodesB with fadeGainBase := (1 : ℚ) }
          { st1 with tracks := Function.update st1.tracks (trackA.id + 1) (some nodesB) }
        | none => st1
      else st

/-- Steps 2–5 of `updateTrackParams` on the track's own node record
(volume, mute/solo gate, pan, playback rate, EQ, reverb send, the three
LFOs, drift); the crossfade step is separate because it touches the
successor track. -/
def applyParamsNodes (track : TrackData) (soloActive : Bool) (now rand : ℚ)
    (nodes : TrackNodesM) : TrackNodesM :=
  let nodes := { nodes with volGainTarget := track.volume }
  let nodes := { nodes with muteGainTarget := if isAudible track soloActive then 1 else 0 }
  let nodes := { nodes with panTarget := track.pan }
  let nodes :=
    { nodes with
        source := nodes.source.map fun (s : SourceNode) => { s with rate := track.playbackRate } }
  let nodes := { nodes with
      eqLowTarget := mapGain track.eqLow
      eqMidTarget := mapGain track.eqMid
      eqHighTarget := mapGain track.eqHigh }
  let nodes := { nodes with reverbSendTarget := track.reverbSend }
  let nodes := updateTrackLFOs track nodes
  { nodes with drift := updateTrackDrift track.driftEnabled now rand nodes.drift }

/-- Steps 6–7 of `updateTrackParams` (granular spray and the feedback
router); `track.granularSpray ? track.granularSpray * 0.8 : 0` is the JS
truthiness test on the spray amount. -/
def applySprayFeedback (track : TrackData) (st : EngineState) (nodes : TrackNodesM) :
    TrackNodesM :=
  let sprayAmount := if track.granularSpray ≠ 0 then track.granularSpray * (4/5) else 0
  let nodes := { nodes with sprayGainTarget := sprayAmount }
  { nodes with
      feedback :=
        updateFeedback track
          (fun i => (getTrack st i).isSome)
          (fun i => ((getTrack st i).bind (·.source)).isSome)
          nodes.feedback }

/-- Steps 2–7 of `updateTrackParams`, applied after the transport step
to the possibly started/stopped state `st1`. -/
def updateTrackParamsAux (st1 : EngineState) (track : TrackData) (soloActive : Bool)
    (rand : ℚ) : EngineState :=
  let st2 := modifyTrack st1 track.id (applyParamsNodes track soloActive st1.now rand)
  let st3 := if track.id % 2 = 0 then updateCrossfade st2 track else st2
  modifyTrack st3 track.id (applySprayFeedback track st3)

/-- `updateTrackParams(track, masterVolume, soloActive, soloTrackId)`:
transport (start/stop against the snapshot's `isPlaying`), then the
per-track parameter sections, then (for even ids) the crossfade bridge,
then spray and feedback.  `masterVolume` and `soloTrackId` are accepted
but unused, as in the source. -/
def updateTrackParams (st : EngineState) (track : TrackData) (masterVolume : ℚ)
    (soloActive : Bool) (soloTrackId : Option ℕ) (rand : ℚ) : EngineState :=
  match st.tracks track.id with
  | none => st
  | some nodes0 =>
    updateTrackParamsAux
      (if track.isPlaying ∧ nodes0.source = none ∧ track.buffer then playTrack st track
       else if ¬ track.isPlaying ∧ nodes0.source ≠ none then stopTrack st track.id
       else st)
      track soloActive rand

/-- The node record built by `initTrack` before its trailing
`updateTrackLFOs` / `updateTrackDrift` / `updateTrackEQ` calls (gain
nodes default to 1, filter gains to 0; `volGain`, `muteGain`, `panner`
and `reverbSend` take their initial values from the snapshot). -/
def initNodes (track : TrackData) : TrackNodesM :=
  { source := none
    volGainTarget := track.volume
    muteGainTarget := if track.isMuted then 0 else 1
    panTarget := track.pan
    eqLowTarget := 0, eqMidTarget := 0, eqHighTarget := 0
    reverbSendTarget := track.reverbSend
    sprayGainTarget := 1
    sprayConnectedToSource := false
    lfoVol := lfoSlotInit, lfoPan := lfoSlotInit, lfoPitch := lfoSlotInit
    drift := driftInit
    fadeOsc := none
    fadeGainBase := 1
    feedback := fbInit }

/-- `initTrack`: idempotent graph construction (re-invoking for a
present id is a no-op), followed by the initial LFO / drift / EQ
updates. -/
def initTrack (st : EngineState) (track : TrackData) (rand : ℚ) : EngineState :=
  if (st.tracks track.id).isSome then st
  else
    let nodes := updateTrackLFOs track (initNodes track)
    let nodes := { nodes with drift := updateTrackDrift track.driftEnabled st.now rand nodes.drift }
    let nodes := { nodes with
        eqLowTarget := mapGain track.eqLow
        eqMidTarget := mapGain track.eqMid
        eqHighTarget := mapGain track.eqHigh }
    { st with tracks := Function.update st.tracks track.id (some nodes) }

/-- A transport/parameter call on the engine. -/
inductive EngineOp where
  | play (track : TrackData)
  | stop (trackId : ℕ)
  | update (track : TrackData) (masterVolume : ℚ) (soloActive : Bool)
      (soloTrackId : Option ℕ) (rand : ℚ)

/-- Apply one engine call. -/
def applyOp (st : EngineState) : EngineOp → EngineState
  | .play t => playTrack st t
  | .stop j => stopTrack st j
  | .update t mv sa sid r => updateTrackParams st t mv sa sid r

/-- Apply a sequence of engine calls. -/
def applyOps (st : EngineState) (ops : List EngineOp) : EngineState :=
  ops.foldl applyOp st

/-! ## WAV encoding (`audioBufferToWav`)

The `ArrayBuffer` is a zero-initialized byte array; `DataView` writes are
modelled by in-place byte stores.  `setUint16`/`setUint32` store the JS
number modulo 2¹⁶/2³² little-endian (the per-byte arithmetic below wraps
identically); `setInt16` converts via truncation toward zero and stores
the 16-bit two's-complement pattern. -/

/-- Little-endian bytes of a 16-bit store. -/
def u16le (v : ℕ) : List ℕ := [v % 256, v / 256 % 256]

/-- Little-endian bytes of a 32-bit store. -/
def u32le (v : ℕ) : List ℕ :=
  [v % 256, v / 256 % 256, v / 65536 % 256, v / 16777216 % 256]

/-- Store `bs` at byte offset `off`. -/
def writeBytes : List ℕ → ℕ → List ℕ → List ℕ
  | arr, _, [] => arr
  | arr, off, b :: bs => writeBytes (arr.set off b) (off + 1) bs

/-- `view.setUint16(off, v, true)`. -/
def setUint16 (arr : List ℕ) (off v : ℕ) : List ℕ := writeBytes arr off (u16le v)

/-- `view.setUint32(off, v, true)`. -/
def setUint32 (arr : List ℕ) (off v : ℕ) : List ℕ := writeBytes arr off (u32le v)

/-- `view.setInt16(off, z, true)` for an integer value: two's-complement
16-bit pattern, little-endian. -/
def setInt16 (arr : List ℕ) (off : ℕ) (z : ℤ) : List ℕ :=
  writeBytes arr off (u16le (z.emod 65536).toNat)

/-- The `writeString` helper: one `setUint8(offset + i, charCodeAt(i))`
per character. -/
def writeString (arr : List ℕ) (off : ℕ) (s : String) : List ℕ :=
  writeBytes arr off (s.toList.map fun c => c.toNat % 256)

/-- `Math.max(-1, Math.min(1, x))`. -/
def clamp1 (x : ℚ) : ℚ := max (-1) (min 1 x)

/-- JS number-to-integer conversion (truncation toward zero), as
performed by `setInt16`. -/
def jsTrunc (q : ℚ) : ℤ := if 0 ≤ q then ⌊q⌋ else ⌈q⌉

/-- One sample of the `data` chunk:
`s = max(-1, min(1, x)); s < 0 ? s * 0x8000 : s * 0x7FFF`. -/
def quantizeSample (x : ℚ) : ℤ :=
  let s := clamp1 x
  jsTrunc (if s < 0 then s * 32768 else s * 32767)

/-- The stereo result loop `result[2i] = left[i]; result[2i+1] = right[i]`
(the two channels of one `AudioBuffer` always have equal length). -/
def interleave : List ℚ → List ℚ → List ℚ
  | x :: xs, y :: ys => x :: y :: interleave xs ys
  | _, _ => []

/-- The `result` Float32Array: interleaved when `numberOfChannels === 2`,
channel 0 alone otherwise. -/
def wavResult (numChannels : ℕ) (ch0 ch1 : List ℚ) : List ℚ :=
  if numChannels = 2 then interleave ch0 ch1 else ch0

/-- The final sample loop, writing 16-bit quantized samples from byte
offset 44 on. -/
def writeSamples (arr : List ℕ) (off : ℕ) : List ℚ → List ℕ
  | [] => arr
  | x :: xs => writeSamples (setInt16 arr off (quantizeSample x)) (off + 2) xs

/-- `audioBufferToWav`, byte for byte (`bitDepth = 16`, PCM format tag
`1`; the buffer holds `44 + result.length * 2` zero-initialized bytes
before the writes). -/
def audioBufferToWav (numChannels sampleRate : ℕ) (ch0 ch1 : List ℚ) : List ℕ :=
  let result := wavResult numChannels ch0 ch1
  let bytesPerSample := 2
  let blockAlign := numChannels * bytesPerSample
  let arr := List.replicate (44 + result.length * bytesPerSample) 0
  let arr := writeString arr 0 "RIFF"
  let arr := setUint32 arr 4 (36 + result.length * bytesPerSample)
  let arr := writeString arr 8 "WAVE"
  let arr := writeString arr 12 "fmt "
  let arr := setUint32 arr 16 16
  let arr := setUint16 arr 20 1
  let arr := setUint16 arr 22 numChannels
  let arr := setUint32 arr 24 sampleRate
  let arr := setUint32 arr 28 (sampleRate * blockAlign)
  let arr := setUint16 arr 32 blockAlign
  let arr := setUint16 arr 34 16
  let arr := writeString arr 36 "data"
  let arr := setUint32 arr 40 (result.length * bytesPerSample)
  writeSamples arr 44 result

/-- `AudioParam.setTargetAtTime(target, t0, τ)` evaluation, per the Web
Audio specification: `v(t) = target + (v0 − target)·exp(−(t − t0)/τ)`
for `t ≥ t0`, where `v0` is the value when the event starts. -/
noncomputable def setTargetValue (v0 target t0 τ t : ℝ) : ℝ :=
  target + (v0 - target) * Real.exp (-((t - t0) / τ))

/-- The drift scaling gain's evaluated value `elapsed` seconds after the
disable path's `setTargetAtTime(0, now, 2.0)`, starting from value
`v0`. -/
noncomputable def driftGainValueAfterDisable (v0 elapsed : ℝ) : ℝ :=
  setTargetValue v0 0 0 2 elapsed

/-- A drift generator that has been active long enough for its scaling
gain to sit at the enable target 0.3 (the `setTargetAtTime(0.3, …, 1.0)`
event was scheduled at context time −2). -/
def driftActive0 : DriftState :=
  { lfo := some { freq := 1/50, started := true, connectedToGain := true }
    gain := some { sched := some ⟨3/10, 1, -2⟩, connectedToVol := true }
    teardowns := [] }

/-- Computed value of track A's `fadeGain.gain` while the bridge exists,
per the Web Audio a-rate model: base (bias) value plus the oscillator's
`sin(phase)` output scaled by `fadeGainOsc.gain`, when that route is
connected. -/
noncomputable def crossfadeGainA (b : BridgeNodes) (baseA : ℚ) (phase : ℝ) : ℝ :=
  (baseA : ℝ) +
    (if b.connAdirect then (b.oscGainValue : ℝ) * Real.sin phase else 0)

/-- Computed value of track B's `fadeGain.gain`: base value plus the
same oscillator output routed through `fadeGainOsc` and the inverter. -/
noncomputable def crossfadeGainB (b : BridgeNodes) (baseB : ℚ) (phase : ℝ) : ℝ :=
  (baseB : ℝ) +
    (if b.connBviaInverter then
      (b.inverterGain : ℝ) * ((b.oscGainValue : ℝ) * Real.sin phase)
    else 0)

/-- The crossfade-relevant state of track `j`: its bridge reference and
the bias value of its `fadeGain.gain`. -/
def fadePairProj (st : EngineState) (j : ℕ) : Option (Option BridgeNodes × ℚ) :=
  (st.tracks j).map fun n => (n.fadeOsc, n.fadeGainBase)

/-- Well-formedness of the crossfade topology: every live bridge hangs
off an even-indexed track, carries the creation constants
(`fadeGainOsc.gain = 1/2`, inverter gain `−1`, both routes connected),
and both paired crossfade gains are biased at `1/2` with the successor
track present. -/
def CrossfadeWF (st : EngineState) : Prop :=
  ∀ j n b, st.tracks j = some n → n.fadeOsc = some b →
    j % 2 = 0 ∧
    b.oscGainValue = 1/2 ∧ b.inverterGain = -1 ∧
    b.connAdirect = true ∧ b.connBviaInverter = true ∧
    n.fadeGainBase = 1/2 ∧
    ∃ nB, st.tracks (j + 1) = some nB ∧ nB.fadeGainBase = 1/2

/-- The evolution of one LFO slot under a sequence of applied parameter
snapshots: `initTrack` nulls both references and immediately applies
`manageLFO` with the initial config `c0`, and every further
`initTrack`/`updateTrackParams` call funnels through
`updateTrackLFOs` into one more `manageLFO` application (each config
paired with whether the slot's target parameter exists at that call). -/
def applyLFOSeq (depthScalar : ℚ) (c0 : LFOConfig × Bool)
    (cs : List (LFOConfig × Bool)) : LFOSlot :=
  cs.foldl (fun s c => manageLFO c.1 c.2 depthScalar s)
    (manageLFO c0.1 c0.2 depthScalar lfoSlotInit)

/-- A well-formed LFO slot: the oscillator and gain references are both
present or both absent, and a present oscillator is started and
connected to its gain. -/
def GoodSlot (s : LFOSlot) : Prop :=
  s.osc.isSome = s.oscGain.isSome ∧
  ∀ o, s.osc = some o → o.started = true ∧ o.connectedToGain = true

/-- The mute-gate gain target of track `j` (`none` when `j` is not in
the track table). -/
def muteProj (st : EngineState) (j : ℕ) : Option ℚ :=
  (st.tracks j).map (·.muteGainTarget)

/-- A round of `updateTrackParams` calls, one per listed snapshot (each
paired with its drift `Math.random()` draw), applied in list order under
a fixed master volume and solo state. -/
def muteStepList (mv : ℚ) (sa : Bool) (sid : Option ℕ) (st : EngineState)
    (l : List (TrackData × ℚ)) : EngineState :=
  l.foldl (fun s p => updateTrackParams s p.1 mv sa sid p.2) st

/-- The ledger entries of sources of track `j` that are started and have
no (possibly deferred) stop scheduled. -/
def activeLedger (st : EngineState) (j : ℕ) : List SourceRec :=
  st.sources.filter fun r => r.trackId == j && !r.stopRequested

/-- The id of the source currently referenced by track `j`, when the
track exists and has an active source. -/
def sourceSidProj (st : EngineState) (j : ℕ) : Option ℕ :=
  ((st.tracks j).bind (·.source)).map (·.sid)

/-- Engine well-formedness: source ids are distinct and fresh, and every
active ledger entry is the source currently referenced by its track. -/
def Inv (st : EngineState) : Prop :=
  (st.sources.map (·.sid)).Nodup ∧
  (∀ r ∈ st.sources, r.sid < st.nextSid) ∧
  (∀ r ∈ st.sources, r.stopRequested = false →
    sourceSidProj st r.trackId = some r.sid)

/-- A bare node record with the `initTrack` defaults (concrete state
used to instantiate theorems). -/
def nodesBare : TrackNodesM :=
  { source := none
    volGainTarget := 3/5, muteGainTarget := 1, panTarget := 0
    eqLowTarget := 0, eqMidTarget := 0, eqHighTarget := 0
    reverbSendTarget := 1/5, sprayGainTarget := 1, sprayConnectedToSource := false
    lfoVol := lfoSlotInit, lfoPan := lfoSlotInit, lfoPitch := lfoSlotInit
    drift := driftInit, fadeOsc := none, fadeGainBase := 1, feedback := fbInit }

/-- A two-track engine (tracks 0 and 1 initialized, nothing playing),
used to instantiate theorems. -/
def engine2 : EngineState :=
  { tracks := fun j => if j ≤ 1 then some nodesBare else none
    sources := [], nextSid := 0, now := 0 }

/-- A live bridge with the creation constants and `crossfadeSpeed = 1`
(concrete instance used to instantiate theorems). -/
def bridgeL : BridgeNodes :=
  { oscStarted := true, oscFreqTarget := 1, oscGainValue := 1/2
    inverterGain := -1, connAdirect := true, connBviaInverter := true }

/-- Track 0's nodes while linked to track 1. -/
def nodesLinkedA : TrackNodesM :=
  { nodesBare with fadeOsc := some bridgeL, fadeGainBase := 1/2 }

/-- Track 1's nodes while linked from track 0. -/
def nodesLinkedB : TrackNodesM :=
  { nodesBare with fadeGainBase := 1/2 }

/-- A two-track engine with tracks 0 and 1 linked by a live bridge. -/
def engineLinked : EngineState :=
  { tracks := fun j => if j = 0 then some nodesLinkedA
      else if j = 1 then some nodesLinkedB else none
    sources := [], nextSid := 0, now := 0 }

/-- An all-default parameter snapshot for track 0 (concrete values used
to instantiate theorems; `feedbackSend = 0.7`, `feedbackTargetId = 2` as
in the spec's worked scenario). -/
def track0 : TrackData :=
  { id := 0, buffer := true, isPlaying := false, isMuted := false, isSolo := false
    volume := 3/5, pan := 0, playbackRate := 1
    eqLow := 1/2, eqMid := 1/2, eqHigh := 1/2
    lfoVol := { enabled := false, rate := 1, depth := 0 }
    lfoPan := { enabled := false, rate := 1, depth := 0 }
    lfoPitch := { enabled := false, rate := 1, depth := 0 }
    driftEnabled := false, linkNext := false, crossfadeSpeed := 1/10
    reverbSend := 1/5, granularSpray := 0
    feedbackSend := 7/10, feedbackTargetId := some 2 }

end Aetherloops

namespace Aetherloops

/-! ### Engine lemmas -/

theorem modifyTrack_tracks (st : EngineState) (j : ℕ) (f : TrackNodesM → TrackNodesM)
    (k : ℕ) :
    (modifyTrack st j f).tracks k =
      if k = j then (st.tracks j).map f else st.tracks k := by
  unfold modifyTrack
  cases hj : st.tracks j with
  | none => by_cases hk : k = j <;> simp [hj, hk]
  | some n => by_cases hk : k = j <;> simp [Function.update_apply, hj, hk]

theorem modifyTrack_isSome (st : EngineState) (j : ℕ) (f : TrackNodesM → TrackNodesM)
    (k : ℕ) :
    ((modifyTrack st j f).tracks k).isSome = (st.tracks k).isSome := by
  rw [modifyTrack_tracks]
  by_cases hk : k = j <;> simp [hk]

theorem playTrack_tracks_other (st : EngineState) (t : TrackData) (k : ℕ)
    (hk : k ≠ t.id) :
    (playTrack st t).tracks k = st.tracks k := by
  unfold playTrack
  cases heq : st.tracks t.id with
  | none => rfl
  | some n =>
    by_cases hb : (!t.buffer) = true
    · simp [hb]
    · cases hs : n.source with
      | some s => simp [hb, hs]
      | none => simp [hb, hs, Function.update_apply, hk]

theorem playTrack_isSome (st : EngineState) (t : TrackData) (k : ℕ) :
    ((playTrack st t).tracks k).isSome = (st.tracks k).isSome := by
  unfold playTrack
  cases heq : st.tracks t.id with
  | none => rfl
  | some n =>
    by_cases hb : (!t.buffer) = true
    · simp [hb]
    · cases hs : n.source with
      | some s => simp [hb, hs]
      | none =>
        by_cases hk : k = t.id
        · subst hk; simp [hb, hs, Function.update_apply, heq]
        · simp [hb, hs, Function.update_apply, hk]

theorem stopTrack_tracks_other (st : EngineState) (j k : ℕ) (hk : k ≠ j) :
    (stopTrack st j).tracks k = st.tracks k := by
  unfold stopTrack
  cases heq : st.tracks j with
  | none => rfl
  | some n =>
    cases hs : n.source with
    | none => simp [hs]
    | some s => simp [hs, Function.update_apply, hk]

theorem stopTrack_isSome (st : EngineState) (j k : ℕ) :
    ((stopTrack st j).tracks k).isSome = (st.tracks k).isSome := by
  unfold stopTrack
  cases heq : st.tracks j with
  | none => rfl
  | some n =>
    cases hs : n.source with
    | none => simp [hs]
    | some s =>
      by_cases hk : k = j
      · subst hk; simp [hs, Function.update_apply, heq]
      · simp [hs, Function.update_apply, hk]

theorem updateCrossfade_muteProj (st : EngineState) (tA : TrackData) (k : ℕ) :
    muteProj (updateCrossfade st tA) k = muteProj st k := by
  unfold updateCrossfade
  cases hA : st.tracks tA.id with
  | none => rfl
  | some nA =>
    cases hB : st.tracks (tA.id + 1) with
    | none =>
      by_cases hl : tA.linkNext = true
      · by_cases hfo : nA.fadeOsc.isSome = true
        · simp only [muteProj, hl, hB, hfo, Option.isSome_none, Bool.false_eq_true,
            and_false, if_false, if_true, Function.update_apply]
          split_ifs with e1 <;> simp_all [muteProj]
        · simp [muteProj, hl, hB, hfo]
      · by_cases hfo : nA.fadeOsc.isSome = true
        · simp only [muteProj, hl, hB, hfo, Bool.false_eq_true, false_and, if_false,
            if_true, Function.update_apply]
          split_ifs with e1 <;> simp_all [muteProj]
        · simp [muteProj, hl, hB, hfo]
    | some nB =>
      by_cases hl : tA.linkNext = true
      · by_cases hfo : nA.fadeOsc.isNone = true
        · simp only [muteProj, hl, hB, hfo, Option.isSome_some, and_self, if_true,
            Option.map_some, Function.update_apply]
          split_ifs with e1 e2 <;> simp_all [muteProj]
        · have hfo2 : nA.fadeOsc.isSome = true := by
            cases hcc : nA.fadeOsc <;> simp_all
          simp only [muteProj, hl, hB, hfo, Option.isSome_some, and_self, if_true,
            Bool.false_eq_true, if_false, Function.update_apply]
          split_ifs with e1 <;> simp_all [muteProj]
      · by_cases hfo : nA.fadeOsc.isSome = true
        · simp only [muteProj, hl, hB, hfo, Bool.false_eq_true, false_and, if_false,
            if_true, Function.update_apply]
          split_ifs with e1 e2 <;> simp_all [muteProj]
        · simp [muteProj, hl, hB, hfo]

theorem updateCrossfade_isSome (st : EngineState) (tA : TrackData) (k : ℕ) :
    ((updateCrossfade st tA).tracks k).isSome = (st.tracks k).isSome := by
  unfold updateCrossfade
  cases hA : st.tracks tA.id with
  | none => rfl
  | some nA =>
    cases hB : st.tracks (tA.id + 1) with
    | none =>
      by_cases hl : tA.linkNext = true
      · by_cases hfo : nA.fadeOsc.isSome = true
        · simp only [hl, hB, hfo, Option.isSome_none, Bool.false_eq_true,
            and_false, if_false, if_true, Function.update_apply]
          split_ifs with e1 <;> simp_all
        · simp [hl, hB, hfo]
      · by_cases hfo : nA.fadeOsc.isSome = true
        · simp only [hl, hB, hfo, Bool.false_eq_true, false_and, if_false,
            if_true, Function.update_apply]
          split_ifs with e1 <;> simp_all
        · simp [hl, hB, hfo]
    | some nB =>
      by_cases hl : tA.linkNext = true
      · by_cases hfo : nA.fadeOsc.isNone = true
        · simp only [hl, hB, hfo, Option.isSome_some, and_self, if_true,
            Option.map_some, Function.update_apply]
          split_ifs with e1 e2 <;> simp_all
        · simp only [hl, hB, hfo, Option.isSome_some, and_self, if_true,
            Bool.false_eq_true, if_false, Function.update_apply]
          split_ifs with e1 <;> simp_all
      · by_cases hfo : nA.fadeOsc.isSome = true
        · simp only [hl, hB, hfo, Bool.false_eq_true, false_and, if_false,
            if_true, Function.update_apply]
          split_ifs with e1 e2 <;> simp_all
        · simp [hl, hB, hfo]

theorem muteProj_modifyTrack_other (st : EngineState) (j : ℕ)
    (f : TrackNodesM → TrackNodesM) (k : ℕ) (hk : k ≠ j) :
    muteProj (modifyTrack st j f) k = muteProj st k := by
  simp [muteProj, modifyTrack_tracks, hk]

theorem muteProj_modifyTrack_map (st : EngineState) (j : ℕ)
    (f : TrackNodesM → TrackNodesM) :
    muteProj (modifyTrack st j f) j
      = (st.tracks j).map fun n => (f n).muteGainTarget := by
  simp [muteProj, modifyTrack_tracks, Option.map_map, Function.comp_def]

theorem applyParamsNodes_muteGainTarget (t : TrackData) (sa : Bool) (now rand : ℚ)
    (n : TrackNodesM) :
    (applyParamsNodes t sa now rand n).muteGainTarget
      = if isAudible t sa then 1 else 0 := rfl

theorem applySprayFeedback_muteGainTarget (t : TrackData) (st : EngineState)
    (n : TrackNodesM) :
    (applySprayFeedback t st n).muteGainTarget = n.muteGainTarget := rfl

theorem updateTrackParamsAux_muteProj_other (s1 : EngineState) (t : TrackData)
    (sa : Bool) (r : ℚ) (k : ℕ) (hk : k ≠ t.id) :
    muteProj (updateTrackParamsAux s1 t sa r) k = muteProj s1 k := by
  simp only [updateTrackParamsAux]
  rw [muteProj_modifyTrack_other _ _ _ _ hk]
  by_cases he : t.id % 2 = 0
  · rw [if_pos he, updateCrossfade_muteProj, muteProj_modifyTrack_other _ _ _ _ hk]
  · rw [if_neg he, muteProj_modifyTrack_other _ _ _ _ hk]

theorem updateTrackParamsAux_muteProj_own (s1 : EngineState) (t : TrackData)
    (sa : Bool) (r : ℚ) (h : (s1.tracks t.id).isSome = true) :
    muteProj (updateTrackParamsAux s1 t sa r) t.id
      = some (if isAudible t sa then 1 else 0) := by
  simp only [updateTrackParamsAux]
  obtain ⟨n1, hn1⟩ := Option.isSome_iff_exists.mp h
  rw [muteProj_modifyTrack_map]
  have hsp : ∀ st' : EngineState,
      ((st'.tracks t.id).map fun n => (applySprayFeedback t st' n).muteGainTarget)
        = muteProj st' t.id := by
    intro st'
    unfold muteProj
    cases st'.tracks t.id <;> simp [applySprayFeedback_muteGainTarget]
  rw [hsp]
  by_cases he : t.id % 2 = 0
  · rw [if_pos he, updateCrossfade_muteProj, muteProj_modifyTrack_map, hn1]
    simp [applyParamsNodes_muteGainTarget]
  · rw [if_neg he, muteProj_modifyTrack_map, hn1]
    simp [applyParamsNodes_muteGainTarget]

theorem updateTrackParamsAux_isSome (s1 : EngineState) (t : TrackData) (sa : Bool)
    (r : ℚ) (k : ℕ) :
    ((updateTrackParamsAux s1 t sa r).tracks k).isSome = (s1.tracks k).isSome := by
  simp only [updateTrackParamsAux]
  rw [modifyTrack_isSome]
  by_cases he : t.id % 2 = 0
  · rw [if_pos he, updateCrossfade_isSome, modifyTrack_isSome]
  · rw [if_neg he, modifyTrack_isSome]

theorem updateTrackParams_muteProj_other (st : EngineState) (t : TrackData) (mv : ℚ)
    (sa : Bool) (sid : Option ℕ) (r : ℚ) (k : ℕ) (hk : k ≠ t.id) :
    muteProj (updateTrackParams st t mv sa sid r) k = muteProj st k := by
  unfold updateTrackParams
  cases h0 : st.tracks t.id with
  | none => rfl
  | some n0 =>
    rw [updateTrackParamsAux_muteProj_other _ _ _ _ _ hk]
    split_ifs with hplay hstop
    · unfold muteProj; rw [playTrack_tracks_other _ _ _ hk]
    · unfold muteProj; rw [stopTrack_tracks_other _ _ _ hk]
    · rfl

theorem updateTrackParams_isSome (st : EngineState) (t : TrackData) (mv : ℚ)
    (sa : Bool) (sid : Option ℕ) (r : ℚ) (k : ℕ) :
    ((updateTrackParams st t mv sa sid r).tracks k).isSome = (st.tracks k).isSome := by
  unfold updateTrackParams
  cases h0 : st.tracks t.id with
  | none => rfl
  | some n0 =>
    rw [updateTrackParamsAux_isSome]
    split_ifs with hplay hstop
    · rw [playTrack_isSome]
    · rw [stopTrack_isSome]
    · rfl

theorem updateTrackParams_muteProj_own (st : EngineState) (t : TrackData) (mv : ℚ)
    (sa : Bool) (sid : Option ℕ) (r : ℚ) (h : (st.tracks t.id).isSome = true) :
    muteProj (updateTrackParams st t mv sa sid r) t.id
      = some (if isAudible t sa then 1 else 0) := by
  unfold updateTrackParams
  cases h0 : st.tracks t.id with
  | none => rw [h0] at h; simp at h
  | some n0 =>
    apply updateTrackParamsAux_muteProj_own
    split_ifs with hplay hstop
    · rw [playTrack_isSome]; exact h
    · rw [stopTrack_isSome]; exact h
    · exact h

theorem updateTrackParams_none (st : EngineState) (t : TrackData) (mv : ℚ)
    (sa : Bool) (sid : Option ℕ) (r : ℚ) (h : st.tracks t.id = none) :
    updateTrackParams st t mv sa sid r = st := by
  unfold updateTrackParams
  rw [h]

theorem muteStepList_isSome (mv : ℚ) (sa : Bool) (sid : Option ℕ)
    (l : List (TrackData × ℚ)) (st : EngineState) (k : ℕ) :
    ((muteStepList mv sa sid st l).tracks k).isSome = (st.tracks k).isSome := by
  induction l generalizing st with
  | nil => rfl
  | cons p rest ih =>
    rw [show muteStepList mv sa sid st (p :: rest)
          = muteStepList mv sa sid (updateTrackParams st p.1 mv sa sid p.2) rest from rfl,
        ih, updateTrackParams_isSome]

theorem muteProj_muteStepList (mv : ℚ) (sa : Bool) (sid : Option ℕ)
    (l : List (TrackData × ℚ)) (st : EngineState) (k : ℕ) :
    muteProj (muteStepList mv sa sid st l) k =
      match (l.filter fun p => p.1.id == k).getLast? with
      | none => muteProj st k
      | some p =>
          if (st.tracks k).isSome then some (if isAudible p.1 sa then 1 else 0)
          else none := by
  induction l using List.reverseRecOn with
  | nil => rfl
  | append_singleton xs p ih =>
    have hstep : muteStepList mv sa sid st (xs ++ [p])
        = updateTrackParams (muteStepList mv sa sid st xs) p.1 mv sa sid p.2 := by
      simp [muteStepList, List.foldl_append]
    rw [hstep]
    by_cases hpk : p.1.id = k
    · have hfil : ((xs ++ [p]).filter fun q => q.1.id == k)
          = (xs.filter fun q => q.1.id == k) ++ [p] := by
        simp [List.filter_append, hpk]
      rw [hfil]
      simp only [List.getLast?_concat]
      by_cases hsome : (st.tracks k).isSome = true
      · rw [if_pos hsome]
        rw [← hpk]
        apply updateTrackParams_muteProj_own
        rw [muteStepList_isSome, hpk]
        exact hsome
      · rw [if_neg hsome]
        have hnone : (muteStepList mv sa sid st xs).tracks p.1.id = none := by
          rw [← Option.not_isSome_iff_eq_none, muteStepList_isSome, hpk]
          exact hsome
        rw [updateTrackParams_none _ _ _ _ _ _ hnone]
        unfold muteProj
        rw [hpk] at hnone
        rw [hnone]
        rfl
    · have hfil : ((xs ++ [p]).filter fun q => q.1.id == k)
          = xs.filter fun q => q.1.id == k := by
        simp [List.filter_append, hpk]
      rw [hfil, updateTrackParams_muteProj_other _ _ _ _ _ _ _ (fun h => hpk h.symm), ih]

theorem filter_trackId_length_le_one (l : List (TrackData × ℚ)) (k : ℕ)
    (hnd : (l.map fun p => p.1.id).Nodup) :
    ((l.filter fun p => p.1.id == k)).length ≤ 1 := by
  induction l with
  | nil => simp
  | cons p rest ih =>
    rw [List.map_cons, List.nodup_cons] at hnd
    by_cases hpk : p.1.id = k
    · have hrest : (rest.filter fun q => q.1.id == k) = [] := by
        rw [List.filter_eq_nil_iff]
        intro q hq hqk
        apply hnd.1
        rw [List.mem_map]
        refine ⟨q, hq, ?_⟩
        rw [hpk]
        simpa using hqk
      simp [List.filter_cons, hpk, hrest]
    · simp only [List.filter_cons]
      have : (p.1.id == k) = false := by simp [hpk]
      rw [this]
      simp only [Bool.false_eq_true, if_false]
      exact ih hnd.2

theorem filter_trackId_getLast?_perm {l₁ l₂ : List (TrackData × ℚ)} (hp : l₁.Perm l₂)
    (hnd : (l₁.map fun p => p.1.id).Nodup) (k : ℕ) :
    (l₁.filter fun p => p.1.id == k).getLast?
      = (l₂.filter fun p => p.1.id == k).getLast? := by
  have hperm := hp.filter (fun p => p.1.id == k)
  cases hf : l₁.filter (fun p => p.1.id == k) with
  | nil =>
    rw [hf] at hperm
    rw [hperm.symm.eq_nil]
  | cons a as =>
    have hlen := filter_trackId_length_le_one l₁ k hnd
    rw [hf] at hlen
    have has : as = [] := by
      rw [← List.length_eq_zero]
      simpa using hlen
    subst has
    rw [hf] at hperm
    rw [List.perm_singleton.mp hperm.symm]

/-- C1: the per-band EQ mapping is piecewise-linear with the stated
segments and anchor values: `-40 + 80·v` on `v ≤ 1/2`, `(v − 1/2)·24` on
`v > 1/2`, sending `0 ↦ -40`, `1/2 ↦ 0`, `1 ↦ 12`; the slope is `80`
strictly below `1/2` and `24` strictly above, so it changes exactly
at `1/2`; and `updateTrackEQ` applies this mapping identically to all
three bands. -/
theorem mapGain_piecewise_linear :
    (∀ v : ℚ, v ≤ 1/2 → mapGain v = -40 + 80 * v) ∧
    (∀ v : ℚ, 1/2 < v → mapGain v = (v - 1/2) * 24) ∧
    mapGain 0 = -40 ∧ mapGain (1/2) = 0 ∧ mapGain 1 = 12 ∧
    (∀ a b : ℚ, a < b → b ≤ 1/2 → mapGain b - mapGain a = 80 * (b - a)) ∧
    (∀ a b : ℚ, 1/2 ≤ a → a < b → mapGain b - mapGain a = 24 * (b - a)) ∧
    (∀ t : TrackData, updateTrackEQ t =
      (mapGain t.eqLow, mapGain t.eqMid, mapGain t.eqHigh)) := by
  refine ⟨?_, ?_, by norm_num [mapGain], by norm_num [mapGain],
    by norm_num [mapGain], ?_, ?_, fun t => rfl⟩
  · intro v hv
    simp only [mapGain, if_pos hv]; ring
  · intro v hv
    simp only [mapGain, if_neg (not_le.mpr hv)]; ring
  · intro a b hab hb
    have ha : a ≤ 1/2 := le_of_lt (lt_of_lt_of_le hab hb)
    simp only [mapGain, if_pos ha, if_pos hb]; ring
  · intro a b ha hab
    have hb : ¬ b ≤ 1/2 := not_le.mpr (lt_of_le_of_lt ha hab)
    rcases eq_or_lt_of_le ha with h | h
    · subst h
      simp only [mapGain]
      rw [if_neg hb, if_pos (le_refl (1/2 : ℚ))]; ring
    · simp only [mapGain, if_neg (not_le.mpr h), if_neg hb]; ring

/-- Witness for C1 at concrete inputs on both segments. -/
theorem mapGain_piecewise_linear_witness :
    mapGain (1/4) = -40 + 80 * (1/4) ∧ mapGain (3/4) = (3/4 - 1/2) * 24 := by
  refine ⟨mapGain_piecewise_linear.1 (1/4) (by norm_num),
    mapGain_piecewise_linear.2.1 (3/4) (by norm_num)⟩

/-- C2: when the resolved feedback target id is not `-1` and the target
track exists, the frequency-deviation amount retargeted on the first
feedback-send gain is `feedbackSend * 3000`, and the FM amount retargeted
on the second is `0` for `feedbackSend ≤ 1/2` and `(feedbackSend − 1/2)·4`
for `feedbackSend > 1/2`, reaching `2` at `feedbackSend = 1`. -/
theorem updateFeedback_amounts (track : TrackData)
    (targetExists targetHasSource : ℤ → Bool) (prev : FeedbackState)
    (hne : resolveFeedbackTarget track ≠ -1)
    (hex : targetExists (resolveFeedbackTarget track) = true) :
    (updateFeedback track targetExists targetHasSource prev).gainTarget
        = track.feedbackSend * 3000 ∧
    (track.feedbackSend ≤ 1/2 →
      (updateFeedback track targetExists targetHasSource prev).fmTarget = 0) ∧
    (1/2 < track.feedbackSend →
      (updateFeedback track targetExists targetHasSource prev).fmTarget
        = (track.feedbackSend - 1/2) * 4) ∧
    (track.feedbackSend = 1 →
      (updateFeedback track targetExists targetHasSource prev).fmTarget = 2) := by
  have key : (updateFeedback track targetExists targetHasSource prev).gainTarget
        = track.feedbackSend * 3000 ∧
      (updateFeedback track targetExists targetHasSource prev).fmTarget
        = fmAmount track.feedbackSend := by
    simp only [updateFeedback]
    rw [if_pos hne, if_pos hex]
    split_ifs with h <;> exact ⟨rfl, rfl⟩
  refine ⟨key.1, ?_, ?_, ?_⟩
  · intro h
    rw [key.2]; simp only [fmAmount]
    rw [if_neg (not_lt.mpr h)]
  · intro h
    rw [key.2]; simp only [fmAmount]
    rw [if_pos h]
  · intro h
    rw [key.2, h]; norm_num [fmAmount]

/-- Witness for C2 on the spec's worked scenario
(`feedbackSend = 0.7`, target id `2`): amounts `0.7·3000 = 2100` and
`(0.7 − 0.5)·4 = 0.8`. -/
theorem updateFeedback_amounts_witness :
    (updateFeedback track0 (fun _ => true) (fun _ => true) fbInit).gainTarget
      = track0.feedbackSend * 3000 ∧
    (updateFeedback track0 (fun _ => true) (fun _ => true) fbInit).fmTarget
      = (track0.feedbackSend - 1/2) * 4 := by
  have h := updateFeedback_amounts track0 (fun _ => true) (fun _ => true) fbInit
    (by norm_num [resolveFeedbackTarget, track0]) rfl
  exact ⟨h.1, h.2.2.1 (by norm_num [track0])⟩

/-- C6: both feedback-send gains are disconnected from all previous
targets on every update (the new connection state does not depend on the
previous one); the target id resolves to `feedbackTargetId` when defined
and `(id+1) % 8` otherwise; when the resolved id is `-1` both gain scales
are driven to `0` and nothing is reconnected; the first send is connected
only when the target exists and `feedbackSend > 1/100`, and the FM send
additionally only when the FM amount is positive and the target has an
active source; both connections, when present, point at the single
resolved target, so a track has at most one outgoing feedback edge. -/
theorem updateFeedback_single_edge (track : TrackData)
    (targetExists targetHasSource : ℤ → Bool) (prev prev' : FeedbackState) :
    ((updateFeedback track targetExists targetHasSource prev).conn
        = (updateFeedback track targetExists targetHasSource prev').conn ∧
     (updateFeedback track targetExists targetHasSource prev).fmConn
        = (updateFeedback track targetExists targetHasSource prev').fmConn) ∧
    (∀ i : ℤ, track.feedbackTargetId = some i → resolveFeedbackTarget track = i) ∧
    (track.feedbackTargetId = none →
        resolveFeedbackTarget track = ((track.id : ℤ) + 1) % 8) ∧
    (resolveFeedbackTarget track = -1 →
        updateFeedback track targetExists targetHasSource prev
          = { prev with gainTarget := 0, fmTarget := 0, conn := none, fmConn := none }) ∧
    ((updateFeedback track targetExists targetHasSource prev).conn ≠ none →
        targetExists (resolveFeedbackTarget track) = true ∧
        track.feedbackSend > 1/100 ∧
        (updateFeedback track targetExists targetHasSource prev).conn
          = some (resolveFeedbackTarget track)) ∧
    ((updateFeedback track targetExists targetHasSource prev).fmConn ≠ none →
        targetExists (resolveFeedbackTarget track) = true ∧
        track.feedbackSend > 1/100 ∧ fmAmount track.feedbackSend > 0 ∧
        targetHasSource (resolveFeedbackTarget track) = true ∧
        (updateFeedback track targetExists targetHasSource prev).fmConn
          = some (resolveFeedbackTarget track)) ∧
    (∀ a b : ℤ, (updateFeedback track targetExists targetHasSource prev).conn = some a →
        (updateFeedback track targetExists targetHasSource prev).fmConn = some b →
        a = b) := by
  have hconn : (updateFeedback track targetExists targetHasSource prev).conn ≠ none →
      targetExists (resolveFeedbackTarget track) = true ∧
      track.feedbackSend > 1/100 ∧
      (updateFeedback track targetExists targetHasSource prev).conn
        = some (resolveFeedbackTarget track) := by
    simp only [updateFeedback]
    split_ifs with h1 h2 h3
    all_goals intro h
    all_goals first
      | exact ⟨h2, h3, rfl⟩
      | exact absurd rfl h
  have hfm : (updateFeedback track targetExists targetHasSource prev).fmConn ≠ none →
      targetExists (resolveFeedbackTarget track) = true ∧
      track.feedbackSend > 1/100 ∧ fmAmount track.feedbackSend > 0 ∧
      targetHasSource (resolveFeedbackTarget track) = true ∧
      (updateFeedback track targetExists targetHasSource prev).fmConn
        = some (resolveFeedbackTarget track) := by
    simp only [updateFeedback]
    split_ifs with h1 h2 h3 h4
    all_goals intro h
    all_goals first
      | exact ⟨h2, h3, h4.1, h4.2, rfl⟩
      | exact absurd rfl h
  refine ⟨?_, ?_, ?_, ?_, hconn, hfm, ?_⟩
  · simp only [updateFeedback]
    split_ifs <;> exact ⟨rfl, rfl⟩
  · intro i h; simp [resolveFeedbackTarget, h]
  · intro h; simp [resolveFeedbackTarget, h]
  · intro h
    simp only [updateFeedback]
    rw [if_neg (not_not_intro h)]
  · intro a b ha hb
    have h1 := hconn (by rw [ha]; exact Option.some_ne_none a)
    have h2 := hfm (by rw [hb]; exact Option.some_ne_none b)
    have e1 : a = resolveFeedbackTarget track := by
      have := h1.2.2; rw [ha] at this; exact Option.some.inj this
    have e2 : b = resolveFeedbackTarget track := by
      have := h2.2.2.2.2; rw [hb] at this; exact Option.some.inj this
    rw [e1, e2]

theorem manageLFO_osc_isSome (c : LFOConfig) (tp : Bool) (ds : ℚ) (s : LFOSlot) :
    (manageLFO c tp ds s).osc.isSome = c.enabled := by
  unfold manageLFO
  by_cases he : c.enabled = true
  · cases hosc : s.osc <;> simp [he, hosc]
  · cases hosc : s.osc <;> simp [he, hosc]

theorem goodSlot_init : GoodSlot lfoSlotInit := by
  constructor
  · rfl
  · intro o h
    exact Option.noConfusion h

theorem manageLFO_good (c : LFOConfig) (tp : Bool) (ds : ℚ) (s : LFOSlot)
    (h : GoodSlot s) : GoodSlot (manageLFO c tp ds s) := by
  obtain ⟨h1, h2⟩ := h
  unfold manageLFO
  by_cases he : c.enabled = true
  · cases hosc : s.osc with
    | none =>
      refine ⟨by simp [he, hosc], ?_⟩
      intro o ho
      simp [he, hosc] at ho
      simp [← ho]
    | some o0 =>
      have hg : s.oscGain.isSome = true := by rw [← h1, hosc]; rfl
      obtain ⟨g0, hg0⟩ := Option.isSome_iff_exists.mp hg
      refine ⟨by simp [he, hosc, hg0], ?_⟩
      intro o ho
      simp [he, hosc] at ho
      have := h2 o0 hosc
      simp [← ho, this.1, this.2]
  · cases hosc : s.osc with
    | none =>
      refine ⟨by simp [he, hosc, ← h1], ?_⟩
      intro o ho
      simp [he, hosc] at ho
    | some o0 =>
      refine ⟨by simp [he, hosc], ?_⟩
      intro o ho
      simp [he, hosc] at ho

/-- C5: for each LFO slot, after `initTrack` (initial config `c0`) and
any further sequence of applied snapshots, the oscillator/gain pair
exists iff the `enabled` flag of the last applied config is set; the
pair is never half-initialized, and a live oscillator is started and
connected to its gain. -/
theorem lfo_pair_lifecycle (ds : ℚ) (c0 : LFOConfig × Bool)
    (cs : List (LFOConfig × Bool)) :
    ((applyLFOSeq ds c0 cs).osc.isSome = (applyLFOSeq ds c0 cs).oscGain.isSome) ∧
    ((applyLFOSeq ds c0 cs).osc.isSome = ((cs.map Prod.fst).getLastD c0.1).enabled) ∧
    (∀ o, (applyLFOSeq ds c0 cs).osc = some o →
        o.started = true ∧ o.connectedToGain = true) := by
  have hgood : GoodSlot (applyLFOSeq ds c0 cs) := by
    unfold applyLFOSeq
    have : ∀ (l : List (LFOConfig × Bool)) (s : LFOSlot), GoodSlot s →
        GoodSlot (l.foldl (fun s c => manageLFO c.1 c.2 ds s) s) := by
      intro l
      induction l with
      | nil => intro s hs; exact hs
      | cons c rest ih =>
        intro s hs
        exact ih _ (manageLFO_good c.1 c.2 ds s hs)
    exact this cs _ (manageLFO_good c0.1 c0.2 ds lfoSlotInit goodSlot_init)
  have hlast : (applyLFOSeq ds c0 cs).osc.isSome
      = ((cs.map Prod.fst).getLastD c0.1).enabled := by
    induction cs using List.reverseRecOn with
    | nil => simp [applyLFOSeq, manageLFO_osc_isSome]
    | append_singleton xs c ih =>
      unfold applyLFOSeq
      rw [List.foldl_append]
      simp [manageLFO_osc_isSome, List.getLastD_concat]
  exact ⟨hgood.1, hlast, hgood.2⟩

/-- Witness for C5: enabling a volume LFO at `initTrack` creates a
started oscillator connected to its gain. -/
theorem lfo_pair_lifecycle_witness :
    ({ started := true, connectedToGain := true, freqTarget := 2 } : LFONode).started = true ∧
    ({ started := true, connectedToGain := true, freqTarget := 2 } : LFONode).connectedToGain = true :=
  (lfo_pair_lifecycle (1/2) ({ enabled := true, rate := 2, depth := 1 }, true) []).2.2
    { started := true, connectedToGain := true, freqTarget := 2 } rfl

/-- C3: the mute gate target driven by `updateTrackParams` is `1.0`
exactly when `NOT isMuted AND NOT (soloActive AND NOT isSolo)` and `0.0`
otherwise (first two conjuncts), and the resulting mute-gate outcome of a
round of per-track updates is invariant under reordering of the round
(distinct track ids), for every track id. -/
theorem muteSolo_resolution :
    (∀ (t : TrackData) (sa : Bool),
        isAudible t sa = (!t.isMuted && !(sa && !t.isSolo))) ∧
    (∀ (st : EngineState) (t : TrackData) (mv : ℚ) (sa : Bool) (sid : Option ℕ) (r : ℚ),
        (st.tracks t.id).isSome = true →
        muteProj (updateTrackParams st t mv sa sid r) t.id
          = some (if isAudible t sa then 1 else 0)) ∧
    (∀ (mv : ℚ) (sa : Bool) (sid : Option ℕ) (st : EngineState)
        (l₁ l₂ : List (TrackData × ℚ)),
        l₁.Perm l₂ → (l₁.map fun p => p.1.id).Nodup →
        ∀ k, muteProj (muteStepList mv sa sid st l₁) k
            = muteProj (muteStepList mv sa sid st l₂) k) := by
  refine ⟨?_, updateTrackParams_muteProj_own, ?_⟩
  · intro t sa
    cases hm : t.isMuted <;> cases sa <;> cases hs : t.isSolo <;>
      simp [isAudible, hm, hs]
  · intro mv sa sid st l₁ l₂ hp hnd k
    rw [muteProj_muteStepList, muteProj_muteStepList,
      filter_trackId_getLast?_perm hp hnd k]

/-- Witness for C3: a concrete update on an initialized track, and a
concrete two-track round applied in both orders. -/
theorem muteSolo_resolution_witness :
    muteProj (updateTrackParams engine2 track0 1 false none 0) 0
      = some (if isAudible track0 false then 1 else 0) ∧
    muteProj (muteStepList 1 false none engine2
        [({ track0 with id := 1 }, 0), (track0, 0)]) 0
      = muteProj (muteStepList 1 false none engine2
        [(track0, 0), ({ track0 with id := 1 }, 0)]) 0 := by
  constructor
  · exact muteSolo_resolution.2.1 engine2 track0 1 false none 0 rfl
  · exact muteSolo_resolution.2.2 1 false none engine2 _ _
      (List.Perm.swap _ _ _) (by decide) 0

theorem updateCrossfade_tracks_create (st : EngineState) (tA : TrackData)
    (nA nB : TrackNodesM) (hA : st.tracks tA.id = some nA)
    (hB : st.tracks (tA.id + 1) = some nB) (hl : tA.linkNext = true)
    (hfo : nA.fadeOsc = none) :
    (updateCrossfade st tA).tracks
      = Function.update (Function.update st.tracks tA.id
          (some { nA with fadeOsc := some ⟨true, tA.crossfadeSpeed, 1/2, -1, true, true⟩, fadeGainBase := 1/2 }))
          (tA.id + 1) (some { nB with fadeGainBase := 1/2 }) := by
  unfold updateCrossfade
  rw [hA]
  simp [hB, hl, hfo]

theorem updateCrossfade_tracks_keep (st : EngineState) (tA : TrackData)
    (nA nB : TrackNodesM) (b0 : BridgeNodes) (hA : st.tracks tA.id = some nA)
    (hB : st.tracks (tA.id + 1) = some nB) (hl : tA.linkNext = true)
    (hfo : nA.fadeOsc = some b0) :
    (updateCrossfade st tA).tracks
      = Function.update st.tracks tA.id
          (some { nA with fadeOsc := some { b0 with oscFreqTarget := tA.crossfadeSpeed } }) := by
  unfold updateCrossfade
  rw [hA]
  simp [hB, hl, hfo]

theorem updateCrossfade_tracks_unlinkB (st : EngineState) (tA : TrackData)
    (nA nB : TrackNodesM) (b0 : BridgeNodes) (hA : st.tracks tA.id = some nA)
    (hB : st.tracks (tA.id + 1) = some nB) (hnl : ¬ tA.linkNext = true)
    (hfo : nA.fadeOsc = some b0) :
    (updateCrossfade st tA).tracks
      = Function.update (Function.update st.tracks tA.id
          (some { nA with fadeOsc := none, fadeGainBase := 1 }))
          (tA.id + 1) (some { nB with fadeGainBase := 1 }) := by
  unfold updateCrossfade
  rw [hA]
  simp [hB, hnl, hfo]

theorem updateCrossfade_tracks_unlinkNoB (st : EngineState) (tA : TrackData)
    (nA : TrackNodesM) (b0 : BridgeNodes) (hA : st.tracks tA.id = some nA)
    (hB : st.tracks (tA.id + 1) = none) (hfo : nA.fadeOsc = some b0) :
    (updateCrossfade st tA).tracks
      = Function.update st.tracks tA.id
          (some { nA with fadeOsc := none, fadeGainBase := 1 }) := by
  unfold updateCrossfade
  rw [hA]
  simp [hB, hfo]

theorem updateCrossfade_noop_linked_rest (st : EngineState) (tA : TrackData)
    (nA : TrackNodesM) (hA : st.tracks tA.id = some nA) (hfo : nA.fadeOsc = none)
    (hcond : ¬ (tA.linkNext = true ∧ (st.tracks (tA.id + 1)).isSome = true)) :
    updateCrossfade st tA = st := by
  unfold updateCrossfade
  rw [hA]
  simp [hcond, hfo]

theorem crossfadeWF_of_fadePairProj_eq (st st2 : EngineState)
    (hproj : ∀ j, fadePairProj st2 j = fadePairProj st j)
    (h : CrossfadeWF st) : CrossfadeWF st2 := by
  intro j n b hn hb
  have hj := hproj j
  unfold fadePairProj at hj
  rw [hn] at hj
  cases hsj : st.tracks j with
  | none => rw [hsj] at hj; simp at hj
  | some n0 =>
    rw [hsj] at hj
    simp at hj
    have h0 := h j n0 b hsj (by rw [← hj.1]; exact hb)
    obtain ⟨he, hf1, hf2, hf3, hf4, hbase, nB, hnB, hnBbase⟩ := h0
    refine ⟨he, hf1, hf2, hf3, hf4, by rw [hj.2]; exact hbase, ?_⟩
    have hj1 := hproj (j + 1)
    unfold fadePairProj at hj1
    rw [hnB] at hj1
    cases hsj1 : st2.tracks (j + 1) with
    | none => rw [hsj1] at hj1; simp at hj1
    | some nB2 =>
      rw [hsj1] at hj1
      simp at hj1
      exact ⟨nB2, rfl, by rw [hj1.2]; exact hnBbase⟩

theorem applyParamsNodes_fade (t : TrackData) (sa : Bool) (now rand : ℚ)
    (n : TrackNodesM) :
    (applyParamsNodes t sa now rand n).fadeOsc = n.fadeOsc ∧
    (applyParamsNodes t sa now rand n).fadeGainBase = n.fadeGainBase := ⟨rfl, rfl⟩

theorem applySprayFeedback_fade (t : TrackData) (st : EngineState) (n : TrackNodesM) :
    (applySprayFeedback t st n).fadeOsc = n.fadeOsc ∧
    (applySprayFeedback t st n).fadeGainBase = n.fadeGainBase := ⟨rfl, rfl⟩

theorem modifyTrack_fadePairProj (st : EngineState) (j : ℕ)
    (f : TrackNodesM → TrackNodesM) (k : ℕ)
    (hf : ∀ n, (f n).fadeOsc = n.fadeOsc ∧ (f n).fadeGainBase = n.fadeGainBase) :
    fadePairProj (modifyTrack st j f) k = fadePairProj st k := by
  unfold fadePairProj
  rw [modifyTrack_tracks]
  by_cases hk : k = j
  · rw [if_pos hk, hk]
    cases hs : st.tracks j with
    | none => rfl
    | some n => simp [(hf n).1, (hf n).2]
  · rw [if_neg hk]

theorem playTrack_fadePairProj (st : EngineState) (t : TrackData) (k : ℕ) :
    fadePairProj (playTrack st t) k = fadePairProj st k := by
  unfold playTrack
  cases heq : st.tracks t.id with
  | none => rfl
  | some n =>
    by_cases hb : (!t.buffer) = true
    · simp [hb]
    · cases hsrc : n.source with
      | some s => simp [hb, hsrc]
      | none =>
        by_cases hk : k = t.id
        · subst hk; simp [fadePairProj, hb, hsrc, Function.update_apply, heq]
        · simp [fadePairProj, hb, hsrc, Function.update_apply, hk]

theorem stopTrack_fadePairProj (st : EngineState) (j k : ℕ) :
    fadePairProj (stopTrack st j) k = fadePairProj st k := by
  unfold stopTrack
  cases heq : st.tracks j with
  | none => rfl
  | some n =>
    cases hsrc : n.source with
    | none => simp [hsrc]
    | some src =>
      by_cases hk : k = j
      · subst hk; simp [fadePairProj, hsrc, Function.update_apply, heq]
      · simp [fadePairProj, hsrc, Function.update_apply, hk]

theorem updateCrossfade_crossfadeWF (st : EngineState) (tA : TrackData)
    (heven : tA.id % 2 = 0) (h : CrossfadeWF st) :
    CrossfadeWF (updateCrossfade st tA) := by
  cases hA : st.tracks tA.id with
  | none =>
    have hst : updateCrossfade st tA = st := by
      unfold updateCrossfade
      rw [hA]
    rw [hst]
    exact h
  | some nA =>
    cases hB : st.tracks (tA.id + 1) with
    | some nB =>
      by_cases hl : tA.linkNext = true
      · cases hfo : nA.fadeOsc with
        | none =>
          intro j n b hn hb
          rw [updateCrossfade_tracks_create st tA nA nB hA hB hl hfo] at hn
          rw [Function.update_apply] at hn
          by_cases hj1 : j = tA.id + 1
          · rw [if_pos hj1] at hn
            obtain rfl : n = { nB with fadeGainBase := 1/2 } := (Option.some.inj hn).symm
            have hbB : nB.fadeOsc = some b := hb
            have hold := h (tA.id + 1) nB b hB hbB
            exact absurd hold.1 (by omega)
          · rw [if_neg hj1, Function.update_apply] at hn
            by_cases hj0 : j = tA.id
            · subst hj0
              rw [if_pos rfl] at hn
              obtain rfl : n = { nA with
                  fadeOsc := some ⟨true, tA.crossfadeSpeed, 1/2, -1, true, true⟩
                  fadeGainBase := 1/2 } := (Option.some.inj hn).symm
              obtain rfl : b = ⟨true, tA.crossfadeSpeed, 1/2, -1, true, true⟩ :=
                (Option.some.inj hb).symm
              refine ⟨heven, rfl, rfl, rfl, rfl, rfl,
                ⟨{ nB with fadeGainBase := 1/2 }, ?_, rfl⟩⟩
              rw [updateCrossfade_tracks_create st tA nA nB hA hB hl hfo,
                Function.update_same]
            · rw [if_neg hj0] at hn
              obtain ⟨hje, hb1, hb2, hb3, hb4, hbase, nB0, hnB0, hnBb⟩ := h j n b hn hb
              refine ⟨hje, hb1, hb2, hb3, hb4, hbase, nB0, ?_, hnBb⟩
              have hne1 : j + 1 ≠ tA.id + 1 := by omega
              have hne0 : j + 1 ≠ tA.id := by omega
              rw [updateCrossfade_tracks_create st tA nA nB hA hB hl hfo,
                Function.update_apply, if_neg hne1, Function.update_apply, if_neg hne0]
              exact hnB0
        | some b0 =>
          intro j n b hn hb
          rw [updateCrossfade_tracks_keep st tA nA nB b0 hA hB hl hfo] at hn
          rw [Function.update_apply] at hn
          by_cases hj0 : j = tA.id
          · subst hj0
            rw [if_pos rfl] at hn
            obtain rfl : n = { nA with
                fadeOsc := some { b0 with oscFreqTarget := tA.crossfadeSpeed } } :=
              (Option.some.inj hn).symm
            obtain rfl : b = { b0 with oscFreqTarget := tA.crossfadeSpeed } :=
              (Option.some.inj hb).symm
            obtain ⟨hje, hb1, hb2, hb3, hb4, hbase, nB0, hnB0, hnBb⟩ :=
              h tA.id nA b0 hA hfo
            refine ⟨hje, hb1, hb2, hb3, hb4, hbase, nB0, ?_, hnBb⟩
            rw [updateCrossfade_tracks_keep st tA nA nB b0 hA hB hl hfo,
              Function.update_apply, if_neg (by omega : tA.id + 1 ≠ tA.id)]
            exact hnB0
          · rw [if_neg hj0] at hn
            obtain ⟨hje, hb1, hb2, hb3, hb4, hbase, nB0, hnB0, hnBb⟩ := h j n b hn hb
            refine ⟨hje, hb1, hb2, hb3, hb4, hbase, nB0, ?_, hnBb⟩
            have hne0 : j + 1 ≠ tA.id := by omega
            rw [updateCrossfade_tracks_keep st tA nA nB b0 hA hB hl hfo,
              Function.update_apply, if_neg hne0]
            exact hnB0
      · cases hfo : nA.fadeOsc with
        | none =>
          have hst : updateCrossfade st tA = st :=
            updateCrossfade_noop_linked_rest st tA nA hA hfo (fun hc => hl hc.1)
          rw [hst]
          exact h
        | some b0 =>
          intro j n b hn hb
          rw [updateCrossfade_tracks_unlinkB st tA nA nB b0 hA hB hl hfo] at hn
          rw [Function.update_apply] at hn
          by_cases hj1 : j = tA.id + 1
          · rw [if_pos hj1] at hn
            obtain rfl : n = { nB with fadeGainBase := 1 } := (Option.some.inj hn).symm
            have hbB : nB.fadeOsc = some b := hb
            have hold := h (tA.id + 1) nB b hB hbB
            exact absurd hold.1 (by omega)
          · rw [if_neg hj1, Function.update_apply] at hn
            by_cases hj0 : j = tA.id
            · subst hj0
              rw [if_pos rfl] at hn
              obtain rfl : n = { nA with fadeOsc := none, fadeGainBase := 1 } :=
                (Option.some.inj hn).symm
              exact Option.noConfusion hb
            · rw [if_neg hj0] at hn
              obtain ⟨hje, hb1, hb2, hb3, hb4, hbase, nB0, hnB0, hnBb⟩ := h j n b hn hb
              refine ⟨hje, hb1, hb2, hb3, hb4, hbase, nB0, ?_, hnBb⟩
              have hne1 : j + 1 ≠ tA.id + 1 := by omega
              have hne0 : j + 1 ≠ tA.id := by omega
              rw [updateCrossfade_tracks_unlinkB st tA nA nB b0 hA hB hl hfo,
                Function.update_apply, if_neg hne1, Function.update_apply, if_neg hne0]
              exact hnB0
    | none =>
      cases hfo : nA.fadeOsc with
      | none =>
        have hst : updateCrossfade st tA = st :=
          updateCrossfade_noop_linked_rest st tA nA hA hfo
            (fun hc => by rw [hB] at hc; simp at hc)
        rw [hst]
        exact h
      | some b0 =>
        intro j n b hn hb
        rw [updateCrossfade_tracks_unlinkNoB st tA nA b0 hA hB hfo] at hn
        rw [Function.update_apply] at hn
        by_cases hj0 : j = tA.id
        · subst hj0
          rw [if_pos rfl] at hn
          obtain rfl : n = { nA with fadeOsc := none, fadeGainBase := 1 } :=
            (Option.some.inj hn).symm
          exact Option.noConfusion hb
        · rw [if_neg hj0] at hn
          obtain ⟨hje, hb1, hb2, hb3, hb4, hbase, nB0, hnB0, hnBb⟩ := h j n b hn hb
          refine ⟨hje, hb1, hb2, hb3, hb4, hbase, nB0, ?_, hnBb⟩
          have hne0 : j + 1 ≠ tA.id := by omega
          rw [updateCrossfade_tracks_unlinkNoB st tA nA b0 hA hB hfo,
            Function.update_apply, if_neg hne0]
          exact hnB0

theorem updateTrackParamsAux_crossfadeWF (s1 : EngineState) (t : TrackData)
    (sa : Bool) (r : ℚ) (h : CrossfadeWF s1) :
    CrossfadeWF (updateTrackParamsAux s1 t sa r) := by
  simp only [updateTrackParamsAux]
  have h2 : CrossfadeWF (modifyTrack s1 t.id (applyParamsNodes t sa s1.now r)) :=
    crossfadeWF_of_fadePairProj_eq _ _
      (fun k => modifyTrack_fadePairProj _ _ _ _ (applyParamsNodes_fade t sa s1.now r)) h
  have h3 : CrossfadeWF (if t.id % 2 = 0 then
      updateCrossfade (modifyTrack s1 t.id (applyParamsNodes t sa s1.now r)) t
    else modifyTrack s1 t.id (applyParamsNodes t sa s1.now r)) := by
    split_ifs with he
    · exact updateCrossfade_crossfadeWF _ _ he h2
    · exact h2
  exact crossfadeWF_of_fadePairProj_eq _ _
    (fun k => modifyTrack_fadePairProj _ _ _ _ (applySprayFeedback_fade t _)) h3

theorem updateTrackParams_crossfadeWF (st : EngineState) (t : TrackData) (mv : ℚ)
    (sa : Bool) (sid : Option ℕ) (r : ℚ) (h : CrossfadeWF st) :
    CrossfadeWF (updateTrackParams st t mv sa sid r) := by
  unfold updateTrackParams
  cases h0 : st.tracks t.id with
  | none => exact h
  | some n0 =>
    apply updateTrackParamsAux_crossfadeWF
    split_ifs with h1 h2
    · exact crossfadeWF_of_fadePairProj_eq _ _ (playTrack_fadePairProj st t) h
    · exact crossfadeWF_of_fadePairProj_eq _ _ (stopTrack_fadePairProj st t.id) h
    · exact h

theorem applyOps_crossfadeWF (st : EngineState) (ops : List EngineOp)
    (h : CrossfadeWF st) : CrossfadeWF (applyOps st ops) := by
  induction ops generalizing st with
  | nil => exact h
  | cons op rest ih =>
    have hstep : CrossfadeWF (applyOp st op) := by
      cases op with
      | play t => exact crossfadeWF_of_fadePairProj_eq _ _ (playTrack_fadePairProj st t) h
      | stop j => exact crossfadeWF_of_fadePairProj_eq _ _ (stopTrack_fadePairProj st j) h
      | update t mv sa sid r => exact updateTrackParams_crossfadeWF st t mv sa sid r h
    exact ih _ hstep

theorem engineLinked_wf : CrossfadeWF engineLinked := by
  intro j n b hn hb
  by_cases h0 : j = 0
  · subst h0
    have hn2 : n = nodesLinkedA := by
      have : engineLinked.tracks 0 = some nodesLinkedA := rfl
      rw [this] at hn
      exact (Option.some.inj hn).symm
    subst hn2
    have hb2 : b = bridgeL := by
      have : nodesLinkedA.fadeOsc = some bridgeL := rfl
      rw [this] at hb
      exact (Option.some.inj hb).symm
    subst hb2
    exact ⟨rfl, rfl, rfl, rfl, rfl, rfl, nodesLinkedB, rfl, rfl⟩
  · by_cases h1 : j = 1
    · subst h1
      have hn2 : n = nodesLinkedB := by
        have : engineLinked.tracks 1 = some nodesLinkedB := rfl
        rw [this] at hn
        exact (Option.some.inj hn).symm
      subst hn2
      exact Option.noConfusion hb
    · exfalso
      have : engineLinked.tracks j = none := by
        simp [engineLinked, h0, h1]
      rw [this] at hn
      exact Option.noConfusion hn

/-- C4: for an even-indexed track A with `linkNext` and an existing
successor B, `updateCrossfade` installs a bridge whose oscillator is
retargeted at `crossfadeSpeed`, biases both crossfade gains at `1/2`,
and routes the oscillator directly into A's gain and through a `-1`
inverter into B's; the crossfade well-formedness (`CrossfadeWF`, the
creation constants and `1/2` biases of every live bridge) is preserved
by every sequence of engine calls, and in any well-formed state every
live bridge evaluates, at every phase, to `1/2 + 1/2·sin` on A,
`1/2 − 1/2·sin` on B, with sum exactly 1. -/
theorem crossfade_complementary (st : EngineState) (tA : TrackData) (nA : TrackNodesM)
    (heven : tA.id % 2 = 0) (hA : st.tracks tA.id = some nA) (hfo : nA.fadeOsc = none)
    (hlink : tA.linkNext = true) (hB : (st.tracks (tA.id + 1)).isSome = true) :
    (∃ nA1 nB1 b,
      (updateCrossfade st tA).tracks tA.id = some nA1 ∧
      (updateCrossfade st tA).tracks (tA.id + 1) = some nB1 ∧
      nA1.fadeOsc = some b ∧
      b.oscFreqTarget = tA.crossfadeSpeed ∧
      nA1.fadeGainBase = 1/2 ∧ nB1.fadeGainBase = 1/2 ∧
      ∀ phase : ℝ,
        crossfadeGainA b nA1.fadeGainBase phase = 1/2 + 1/2 * Real.sin phase ∧
        crossfadeGainB b nB1.fadeGainBase phase = 1/2 - 1/2 * Real.sin phase ∧
        crossfadeGainA b nA1.fadeGainBase phase
          + crossfadeGainB b nB1.fadeGainBase phase = 1) ∧
    (∀ (st2 : EngineState) (ops : List EngineOp),
        CrossfadeWF st2 → CrossfadeWF (applyOps st2 ops)) ∧
    (∀ st2 : EngineState, CrossfadeWF st2 →
        ∀ (j : ℕ) (n2 : TrackNodesM) (b2 : BridgeNodes) (nB2 : TrackNodesM),
        st2.tracks j = some n2 → n2.fadeOsc = some b2 →
        st2.tracks (j + 1) = some nB2 → ∀ phase : ℝ,
        crossfadeGainA b2 n2.fadeGainBase phase = 1/2 + 1/2 * Real.sin phase ∧
        crossfadeGainB b2 nB2.fadeGainBase phase = 1/2 - 1/2 * Real.sin phase ∧
        crossfadeGainA b2 n2.fadeGainBase phase
          + crossfadeGainB b2 nB2.fadeGainBase phase = 1) := by
  refine ⟨?_, applyOps_crossfadeWF, ?_⟩
  · obtain ⟨nB, hBv⟩ := Option.isSome_iff_exists.mp hB
    have hAB : tA.id ≠ tA.id + 1 := by omega
    refine ⟨{ nA with fadeOsc := some ⟨true, tA.crossfadeSpeed, 1/2, -1, true, true⟩, fadeGainBase := 1/2 },
      { nB with fadeGainBase := 1/2 },
      ⟨true, tA.crossfadeSpeed, 1/2, -1, true, true⟩,
      ?_, ?_, rfl, rfl, rfl, rfl, ?_⟩
    · simp [updateCrossfade, hA, hlink, hBv, hfo, Function.update_apply, hAB]
    · simp [updateCrossfade, hA, hlink, hBv, hfo, Function.update_apply, hAB]
    · intro phase
      refine ⟨?_, ?_, ?_⟩ <;>
        · simp only [crossfadeGainA, crossfadeGainB, if_pos rfl]
          push_cast
          ring
  · intro st2 hwf j n2 b2 nB2 hn hb hnB phase
    obtain ⟨he, hf1, hf2, hf3, hf4, hbase, nB0, hnB0, hnBb⟩ := hwf j n2 b2 hn hb
    have hBB : nB2 = nB0 := by
      rw [hnB] at hnB0
      exact Option.some.inj hnB0
    have hnBb2 : nB2.fadeGainBase = 1/2 := by rw [hBB]; exact hnBb
    refine ⟨?_, ?_, ?_⟩ <;>
      · simp only [crossfadeGainA, crossfadeGainB, hf1, hf2, hf3, hf4, hbase, hnBb2,
          if_pos rfl]
        push_cast
        ring

/-- Witness for C4: linking tracks 0 and 1 of a freshly initialized
pair, and the complementarity of a live bridge at phase 0. -/
theorem crossfade_complementary_witness :
    (∃ nA1 nB1 b,
      (updateCrossfade engine2 { track0 with linkNext := true }).tracks 0 = some nA1 ∧
      (updateCrossfade engine2 { track0 with linkNext := true }).tracks 1 = some nB1 ∧
      nA1.fadeOsc = some b ∧
      b.oscFreqTarget = ({ track0 with linkNext := true } : TrackData).crossfadeSpeed ∧
      nA1.fadeGainBase = 1/2 ∧ nB1.fadeGainBase = 1/2 ∧
      ∀ phase : ℝ,
        crossfadeGainA b nA1.fadeGainBase phase = 1/2 + 1/2 * Real.sin phase ∧
        crossfadeGainB b nB1.fadeGainBase phase = 1/2 - 1/2 * Real.sin phase ∧
        crossfadeGainA b nA1.fadeGainBase phase
          + crossfadeGainB b nB1.fadeGainBase phase = 1) ∧
    crossfadeGainA bridgeL nodesLinkedA.fadeGainBase 0
      + crossfadeGainB bridgeL nodesLinkedB.fadeGainBase 0 = 1 := by
  have h := crossfade_complementary engine2 { track0 with linkNext := true } nodesBare
    rfl rfl rfl rfl rfl
  exact ⟨h.1,
    (h.2.2 engineLinked engineLinked_wf 0 nodesLinkedA bridgeL nodesLinkedB
      rfl rfl rfl 0).2.2⟩

@[simp] theorem u16le_length (v : ℕ) : (u16le v).length = 2 := rfl

@[simp] theorem u32le_length (v : ℕ) : (u32le v).length = 4 := rfl

theorem writeBytes_fill2 (xs : List ℕ) (n : ℕ) (ys : List ℕ) (off : ℕ) (bs : List ℕ)
    (hoff : off = xs.length) (h : bs.length ≤ n) :
    writeBytes (xs ++ (List.replicate n 0 ++ ys)) off bs
      = (xs ++ bs) ++ (List.replicate (n - bs.length) 0 ++ ys) := by
  induction bs generalizing xs n off with
  | nil =>
    subst hoff
    simp [writeBytes]
  | cons b rest ih =>
    subst hoff
    cases n with
    | zero => simp at h
    | succ m =>
      simp only [writeBytes]
      have hset : (xs ++ (List.replicate (m + 1) 0 ++ ys)).set xs.length b
          = (xs ++ [b]) ++ (List.replicate m 0 ++ ys) := by
        rw [List.set_append_right _ _ (le_refl _)]
        simp [List.replicate_succ]
      rw [hset]
      have hoff2 : xs.length + 1 = (xs ++ [b]).length := by simp
      rw [hoff2, ih (xs ++ [b]) m _ rfl
        (by simp only [List.length_cons] at h; omega)]
      simp [List.append_assoc, Nat.succ_sub_succ]

theorem writeBytes_fill_exact (xs : List ℕ) (n : ℕ) (ys : List ℕ) (off : ℕ)
    (bs : List ℕ) (hoff : off = xs.length) (h : bs.length = n) :
    writeBytes (xs ++ (List.replicate n 0 ++ ys)) off bs = (xs ++ bs) ++ ys := by
  rw [writeBytes_fill2 xs n ys off bs hoff (le_of_eq h), h]
  simp

theorem writeSamples_fill (xs : List ℕ) (samples : List ℚ) (off : ℕ)
    (hoff : off = xs.length) :
    writeSamples (xs ++ List.replicate (samples.length * 2) 0) off samples
      = xs ++ (samples.flatMap fun x => u16le ((quantizeSample x).emod 65536).toNat) := by
  induction samples generalizing xs off with
  | nil =>
    subst hoff
    simp [writeSamples]
  | cons x rest ih =>
    subst hoff
    simp only [writeSamples, setInt16]
    have hlen : (x :: rest).length * 2 = 2 + rest.length * 2 := by
      simp [List.length_cons]
      ring
    rw [hlen, List.replicate_add]
    rw [writeBytes_fill2 xs 2 _ _ _ rfl (by simp)]
    simp only [u16le_length, Nat.sub_self, List.replicate_zero, List.nil_append]
    have hoff2 : xs.length + 2
        = (xs ++ u16le ((quantizeSample x).emod 65536).toNat).length := by
      simp
    rw [hoff2, ih _ _ rfl]
    simp [List.append_assoc]

/-- C7: the bit-exact WAV contract.  `audioBufferToWav` produces exactly
the `RIFF` header with chunk size `36 + dataLen`, the `WAVE` and `fmt `
ids, a 16-byte fmt chunk with PCM tag 1, the channel count, sample rate,
byte rate `sampleRate · blockAlign`, block align `channels · 2` and bit
depth 16, followed by the `data` chunk header and the little-endian
16-bit two's-complement samples; the per-sample quantization clamps to
`[-1, 1]` and scales negative amplitudes by 32768 and non-negative ones
by 32767 (never overflowing the signed 16-bit range), and the sample
stream is the stereo interleave for two channels and channel 0 alone for
mono. -/
theorem audioBufferToWav_contract (numChannels sampleRate : ℕ) (ch0 ch1 : List ℚ) :
    (audioBufferToWav numChannels sampleRate ch0 ch1 =
      [82, 73, 70, 70] ++ u32le (36 + (wavResult numChannels ch0 ch1).length * 2) ++
      [87, 65, 86, 69] ++ [102, 109, 116, 32] ++
      u32le 16 ++ u16le 1 ++ u16le numChannels ++ u32le sampleRate ++
      u32le (sampleRate * (numChannels * 2)) ++ u16le (numChannels * 2) ++ u16le 16 ++
      [100, 97, 116, 97] ++ u32le ((wavResult numChannels ch0 ch1).length * 2) ++
      ((wavResult numChannels ch0 ch1).flatMap
        fun x => u16le ((quantizeSample x).emod 65536).toNat)) ∧
    (∀ x : ℚ, -32768 ≤ quantizeSample x ∧ quantizeSample x ≤ 32767) ∧
    (∀ x : ℚ, clamp1 x < 0 → quantizeSample x = jsTrunc (clamp1 x * 32768)) ∧
    (∀ x : ℚ, 0 ≤ clamp1 x → quantizeSample x = jsTrunc (clamp1 x * 32767)) ∧
    wavResult 2 ch0 ch1 = interleave ch0 ch1 ∧
    wavResult 1 ch0 ch1 = ch0 := by
  refine ⟨?_, ?_, ?_, ?_, rfl, rfl⟩
  · have hRIFF : ("RIFF".toList.map fun c => c.toNat % 256) = [82, 73, 70, 70] := rfl
    have hWAVE : ("WAVE".toList.map fun c => c.toNat % 256) = [87, 65, 86, 69] := rfl
    have hfmt : ("fmt ".toList.map fun c => c.toNat % 256) = [102, 109, 116, 32] := rfl
    have hdata : ("data".toList.map fun c => c.toNat % 256) = [100, 97, 116, 97] := rfl
    simp only [audioBufferToWav, writeString, setUint32, setUint16]
    rw [hRIFF, hWAVE, hfmt, hdata]
    rw [List.replicate_add]
    rw [show List.replicate 44 (0:ℕ)
          ++ List.replicate ((wavResult numChannels ch0 ch1).length * 2) 0
        = [] ++ (List.replicate 44 0
          ++ List.replicate ((wavResult numChannels ch0 ch1).length * 2) 0)
      from (List.nil_append _).symm]
    rw [writeBytes_fill2 _ _ _ _ _ ?o1 ?e1]
    rw [writeBytes_fill2 _ _ _ _ _ ?o2 ?e2]
    rw [writeBytes_fill2 _ _ _ _ _ ?o3 ?e3]
    rw [writeBytes_fill2 _ _ _ _ _ ?o4 ?e4]
    rw [writeBytes_fill2 _ _ _ _ _ ?o5 ?e5]
    rw [writeBytes_fill2 _ _ _ _ _ ?o6 ?e6]
    rw [writeBytes_fill2 _ _ _ _ _ ?o7 ?e7]
    rw [writeBytes_fill2 _ _ _ _ _ ?o8 ?e8]
    rw [writeBytes_fill2 _ _ _ _ _ ?o9 ?e9]
    rw [writeBytes_fill2 _ _ _ _ _ ?o10 ?e10]
    rw [writeBytes_fill2 _ _ _ _ _ ?o11 ?e11]
    rw [writeBytes_fill2 _ _ _ _ _ ?o12 ?e12]
    rw [writeBytes_fill_exact _ _ _ _ _ ?o13 ?e13]
    rw [writeSamples_fill _ _ _ ?o14]
    · simp [List.append_assoc]
    all_goals simp
  · intro x
    have h1 : (-1 : ℚ) ≤ clamp1 x := le_max_left _ _
    have h2 : clamp1 x ≤ 1 := max_le (by norm_num) (min_le_left _ _)
    simp only [quantizeSample, jsTrunc]
    by_cases hs : clamp1 x < 0
    · rw [if_pos hs]
      have hq : clamp1 x * 32768 < 0 := mul_neg_of_neg_of_pos hs (by norm_num)
      rw [if_neg (not_le.mpr hq)]
      constructor
      · have h3 : (-32768 : ℚ) ≤ clamp1 x * 32768 := by nlinarith
        have h4 := Int.le_ceil (clamp1 x * 32768)
        have h5 : (-32768 : ℚ) ≤ (⌈clamp1 x * 32768⌉ : ℚ) := le_trans h3 h4
        exact_mod_cast h5
      · have h6 : ⌈clamp1 x * 32768⌉ ≤ (0 : ℤ) :=
          Int.ceil_le.mpr (by exact_mod_cast le_of_lt hq)
        omega
    · rw [if_neg hs]
      have hq0 : (0 : ℚ) ≤ clamp1 x * 32767 := mul_nonneg (not_lt.mp hs) (by norm_num)
      rw [if_pos hq0]
      constructor
      · have h3 : (0 : ℤ) ≤ ⌊clamp1 x * 32767⌋ := Int.floor_nonneg.mpr hq0
        omega
      · have hle : clamp1 x * 32767 ≤ 32767 := by nlinarith
        have h4 := Int.floor_le (clamp1 x * 32767)
        have h5 : ((⌊clamp1 x * 32767⌋ : ℚ)) ≤ 32767 := le_trans h4 hle
        exact_mod_cast h5
  · intro x hneg
    simp only [quantizeSample]
    rw [if_pos hneg]
  · intro x hnn
    simp only [quantizeSample]
    rw [if_neg (not_lt.mpr hnn)]

/-- Witness for C7: quantization bounds and branch selection at concrete
amplitudes. -/
theorem audioBufferToWav_contract_witness :
    (-32768 ≤ quantizeSample (3/4) ∧ quantizeSample (3/4) ≤ 32767) ∧
    quantizeSample (-2) = jsTrunc (clamp1 (-2) * 32768) ∧
    quantizeSample (3/4) = jsTrunc (clamp1 (3/4) * 32767) := by
  have h := audioBufferToWav_contract 1 44100 [] []
  refine ⟨h.2.1 (3/4), ?_, ?_⟩
  · exact h.2.2.1 (-2) (by norm_num [clamp1])
  · exact h.2.2.2.1 (3/4) (by norm_num [clamp1])

/-- C9 counterexample: on disable the drift gain is retargeted to 0 with
`setTargetAtTime(0, now, 2.0)` — an exponential approach with a 2 s time
constant — so with the gain at its steady enable value 0.3, the evaluated
modulation amplitude exactly 2 s after the disable is `0.3·e⁻¹`, which is
not 0: the amplitude has not reached 0 by +2 s. -/
theorem drift_decay_counterexample :
    (updateTrackDrift false 0 0 driftActive0).gain
        = some { sched := some ⟨0, 2, 0⟩, connectedToVol := true } ∧
    driftGainValueAfterDisable (3/10) 2 = (3/10) * Real.exp (-1) ∧
    driftGainValueAfterDisable (3/10) 2 ≠ 0 := by
  refine ⟨rfl, ?_, ?_⟩
  · unfold driftGainValueAfterDisable setTargetValue
    norm_num
  · unfold driftGainValueAfterDisable setTargetValue
    simp only [sub_zero, zero_add]
    positivity

/-- C9 (amended): on disable, `updateTrackDrift` retargets the drift
scaling gain to 0 with a 2-second exponential time constant and schedules
the teardown callback 2.1 s out; the modulation amplitude decays toward 0
(value `v0·e⁻¹` at +2 s, limit 0, never exactly 0 for a nonzero start
while the generator remains attached); when the scheduled teardown fires,
the generator is stopped and fully detached (oscillator and gain
references nulled, so no residual connection). -/
theorem drift_disable_behavior (d : DriftState) (l : DriftLfoNode) (now rand : ℚ)
    (hl : d.lfo = some l) :
    ((updateTrackDrift false now rand d).gain
        = d.gain.map fun g => { g with sched := some ⟨0, 2, now⟩ }) ∧
    ((updateTrackDrift false now rand d).teardowns = d.teardowns ++ [now + 21/10]) ∧
    ((updateTrackDrift false now rand d).lfo = some l) ∧
    (∀ v0 : ℝ, driftGainValueAfterDisable v0 2 = v0 * Real.exp (-1)) ∧
    (∀ v0 : ℝ, Filter.Tendsto (driftGainValueAfterDisable v0) Filter.atTop (nhds 0)) ∧
    (∀ v0 s : ℝ, v0 ≠ 0 → driftGainValueAfterDisable v0 s ≠ 0) ∧
    (fireDriftTeardown (updateTrackDrift false now rand d)
        = { lfo := none, gain := none, teardowns := d.teardowns ++ [now + 21/10] }) := by
  have hstate : updateTrackDrift false now rand d
      = { d with
            gain := d.gain.map fun g => { g with sched := some ⟨0, 2, now⟩ }
            teardowns := d.teardowns ++ [now + 21/10] } := by
    unfold updateTrackDrift
    simp [hl]
  refine ⟨?_, ?_, ?_, ?_, ?_, ?_, ?_⟩
  · rw [hstate]
  · rw [hstate]
  · rw [hstate]
    exact hl
  · intro v0
    unfold driftGainValueAfterDisable setTargetValue
    norm_num
  · intro v0
    have h1 : Filter.Tendsto (fun s : ℝ => Real.exp (-(s / 2))) Filter.atTop (nhds 0) := by
      apply Real.tendsto_exp_neg_atTop_nhds_zero.comp
      apply Filter.Tendsto.atTop_div_const (by norm_num : (0:ℝ) < 2)
      exact Filter.tendsto_id
    have h2 := h1.const_mul v0
    rw [mul_zero] at h2
    apply h2.congr
    intro s
    unfold driftGainValueAfterDisable setTargetValue
    simp only [sub_zero, zero_add]
  · intro v0 s hv0
    unfold driftGainValueAfterDisable setTargetValue
    simp only [sub_zero, zero_add]
    exact mul_ne_zero hv0 (Real.exp_ne_zero _)
  · rw [hstate]
    unfold fireDriftTeardown
    simp [hl]

/-- Witness for C9's amended statement at concrete inputs. -/
theorem drift_disable_behavior_witness :
    fireDriftTeardown (updateTrackDrift false 0 0 driftActive0)
      = { lfo := none, gain := none, teardowns := [(0 : ℚ) + 21/10] } ∧
    driftGainValueAfterDisable (3/10) 2 = (3/10) * Real.exp (-1) := by
  have h := drift_disable_behavior driftActive0
    { freq := 1/50, started := true, connectedToGain := true } 0 0 rfl
  refine ⟨?_, h.2.2.2.1 (3/10)⟩
  rw [h.2.2.2.2.2.2]
  rfl

theorem modifyTrack_sources (st : EngineState) (j : ℕ) (f : TrackNodesM → TrackNodesM) :
    (modifyTrack st j f).sources = st.sources ∧
    (modifyTrack st j f).nextSid = st.nextSid := by
  unfold modifyTrack
  cases h : st.tracks j <;> exact ⟨rfl, rfl⟩

theorem updateCrossfade_sources (st : EngineState) (tA : TrackData) :
    (updateCrossfade st tA).sources = st.sources ∧
    (updateCrossfade st tA).nextSid = st.nextSid := by
  unfold updateCrossfade
  cases hA : st.tracks tA.id with
  | none => exact ⟨rfl, rfl⟩
  | some nA =>
    cases hB : st.tracks (tA.id + 1) with
    | none =>
      by_cases hl : tA.linkNext = true <;>
        by_cases hfo : nA.fadeOsc.isSome = true <;>
          simp [hl, hB, hfo]
    | some nB =>
      by_cases hl : tA.linkNext = true
      · by_cases hfo : nA.fadeOsc.isNone = true <;> simp [hl, hB, hfo]
      · by_cases hfo : nA.fadeOsc.isSome = true <;> simp [hl, hB, hfo]

theorem updateCrossfade_sourceSidProj (st : EngineState) (tA : TrackData) (k : ℕ) :
    sourceSidProj (updateCrossfade st tA) k = sourceSidProj st k := by
  unfold updateCrossfade
  cases hA : st.tracks tA.id with
  | none => rfl
  | some nA =>
    cases hB : st.tracks (tA.id + 1) with
    | none =>
      by_cases hl : tA.linkNext = true
      · by_cases hfo : nA.fadeOsc.isSome = true
        · simp only [sourceSidProj, hl, hB, hfo, Option.isSome_none, Bool.false_eq_true,
            and_false, if_false, if_true, Function.update_apply]
          split_ifs with e1 <;> simp_all [sourceSidProj]
        · simp [sourceSidProj, hl, hB, hfo]
      · by_cases hfo : nA.fadeOsc.isSome = true
        · simp only [sourceSidProj, hl, hB, hfo, Bool.false_eq_true, false_and, if_false,
            if_true, Function.update_apply]
          split_ifs with e1 <;> simp_all [sourceSidProj]
        · simp [sourceSidProj, hl, hB, hfo]
    | some nB =>
      by_cases hl : tA.linkNext = true
      · by_cases hfo : nA.fadeOsc.isNone = true
        · simp only [sourceSidProj, hl, hB, hfo, Option.isSome_some, and_self, if_true,
            Option.map_some, Function.update_apply]
          split_ifs with e1 e2 <;> simp_all [sourceSidProj]
        · simp only [sourceSidProj, hl, hB, hfo, Option.isSome_some, and_self, if_true,
            Bool.false_eq_true, if_false, Function.update_apply]
          split_ifs with e1 <;> simp_all [sourceSidProj]
      · by_cases hfo : nA.fadeOsc.isSome = true
        · simp only [sourceSidProj, hl, hB, hfo, Bool.false_eq_true, false_and, if_false,
            if_true, Function.update_apply]
          split_ifs with e1 e2 <;> simp_all [sourceSidProj]
        · simp [sourceSidProj, hl, hB, hfo]

theorem applyParamsNodes_source (t : TrackData) (sa : Bool) (now rand : ℚ)
    (n : TrackNodesM) :
    (applyParamsNodes t sa now rand n).source
      = n.source.map fun (s : SourceNode) => { s with rate := t.playbackRate } := rfl

theorem applySprayFeedback_source (t : TrackData) (st : EngineState) (n : TrackNodesM) :
    (applySprayFeedback t st n).source = n.source := rfl

theorem modifyTrack_sourceSidProj (st : EngineState) (j : ℕ)
    (f : TrackNodesM → TrackNodesM) (k : ℕ)
    (hf : ∀ n, ((f n).source).map (·.sid) = (n.source).map (·.sid)) :
    sourceSidProj (modifyTrack st j f) k = sourceSidProj st k := by
  unfold sourceSidProj
  rw [modifyTrack_tracks]
  by_cases hk : k = j
  · rw [if_pos hk, hk]
    cases hs : st.tracks j with
    | none => rfl
    | some n => simp [hf n]
  · rw [if_neg hk]

theorem inv_intro (tr : ℕ → Option TrackNodesM) (srcs : List SourceRec) (ns : ℕ)
    (tn : ℚ)
    (h1 : (srcs.map (·.sid)).Nodup)
    (h2 : ∀ r ∈ srcs, r.sid < ns)
    (h3 : ∀ r ∈ srcs, r.stopRequested = false →
        ((tr r.trackId).bind (·.source)).map (·.sid) = some r.sid) :
    Inv ⟨tr, srcs, ns, tn⟩ := ⟨h1, h2, h3⟩

theorem playTrack_inv (st : EngineState) (t : TrackData) (h : Inv st) :
    Inv (playTrack st t) := by
  obtain ⟨hnd, hbd, href⟩ := h
  have hbd2 : ∀ a ∈ st.sources.map (fun x => x.sid), a < st.nextSid := by
    intro a ha2
    obtain ⟨r, hr, hra⟩ := List.mem_map.mp ha2
    subst hra
    exact hbd r hr
  unfold playTrack
  cases heq : st.tracks t.id with
  | none => exact ⟨hnd, hbd, href⟩
  | some n =>
    by_cases hb : (!t.buffer) = true
    · simp only [hb, if_true]
      exact ⟨hnd, hbd, href⟩
    · cases hsrc : n.source with
      | some s =>
        simp only [hb, hsrc, Bool.not_eq_true, if_false]
        simp [hb]
        exact ⟨hnd, hbd, href⟩
      | none =>
        simp only [hsrc]
        simp only [hb, if_false]
        apply inv_intro
        · rw [List.map_append, List.nodup_append]
          refine ⟨hnd, List.nodup_singleton _, ?_⟩
          intro a ha hb2
          simp only [List.map_cons, List.map_nil, List.mem_singleton] at hb2
          have := hbd2 a ha
          omega
        · intro r hr
          rw [List.mem_append] at hr
          rcases hr with hr | hr
          · exact lt_trans (hbd r hr) (Nat.lt_succ_self _)
          · simp only [List.mem_singleton] at hr
            subst hr
            exact Nat.lt_succ_self _
        · intro r hr hstop
          rw [List.mem_append] at hr
          rcases hr with hr | hr
          · have hproj := href r hr hstop
            by_cases hrj : r.trackId = t.id
            · rw [hrj] at hproj
              unfold sourceSidProj at hproj
              rw [heq] at hproj
              simp [hsrc] at hproj
            · unfold sourceSidProj at hproj
              rw [Function.update_apply, if_neg hrj]
              exact hproj
          · simp only [List.mem_singleton] at hr
            subst hr
            simp [Function.update_apply]

theorem stopTrack_inv (st : EngineState) (j : ℕ) (h : Inv st) :
    Inv (stopTrack st j) := by
  obtain ⟨hnd, hbd, href⟩ := h
  unfold stopTrack
  cases heq : st.tracks j with
  | none => exact ⟨hnd, hbd, href⟩
  | some n =>
    cases hsrc : n.source with
    | none =>
      simp only [hsrc]
      exact ⟨hnd, hbd, href⟩
    | some src =>
      simp only [hsrc]
      apply inv_intro
      · rw [List.map_map]
        have hfc : ((fun (x : SourceRec) => x.sid) ∘ fun (r : SourceRec) =>
            if r.sid = src.sid then { r with stopRequested := true } else r)
              = (fun (r : SourceRec) => r.sid) := by
          funext r
          by_cases hh : r.sid = src.sid <;> simp [hh]
        rw [hfc]
        exact hnd
      · intro r hr
        rw [List.mem_map] at hr
        obtain ⟨r0, hr0, hmark⟩ := hr
        have hb0 := hbd r0 hr0
        have hsid : r.sid = r0.sid := by
          rw [← hmark]
          by_cases hh : r0.sid = src.sid <;> simp [hh]
        rw [hsid]
        exact hb0
      · intro r hr hstop
        rw [List.mem_map] at hr
        obtain ⟨r0, hr0, hmark⟩ := hr
        by_cases hh : r0.sid = src.sid
        · rw [← hmark] at hstop
          simp [hh] at hstop
        · rw [← hmark] at hstop ⊢
          rw [if_neg hh] at hstop ⊢
          have hpr := href r0 hr0 hstop
          by_cases hrj : r0.trackId = j
          · rw [hrj] at hpr
            unfold sourceSidProj at hpr
            rw [heq] at hpr
            simp [hsrc] at hpr
            exact absurd hpr.symm hh
          · unfold sourceSidProj at hpr
            rw [Function.update_apply, if_neg hrj]
            exact hpr
theorem updateTrackParamsAux_inv (s1 : EngineState) (t : TrackData) (sa : Bool)
    (r : ℚ) (h : Inv s1) : Inv (updateTrackParamsAux s1 t sa r) := by
  obtain ⟨hnd, hbd, href⟩ := h
  have hf1 : ∀ n : TrackNodesM,
      ((applySprayFeedback t (if t.id % 2 = 0 then
          updateCrossfade (modifyTrack s1 t.id (applyParamsNodes t sa s1.now r)) t
        else modifyTrack s1 t.id (applyParamsNodes t sa s1.now r)) n).source).map (·.sid)
        = (n.source).map (·.sid) := by
    intro n
    rw [applySprayFeedback_source]
  have hf2 : ∀ n : TrackNodesM,
      ((applyParamsNodes t sa s1.now r n).source).map (·.sid)
        = (n.source).map (·.sid) := by
    intro n
    rw [applyParamsNodes_source]
    cases n.source <;> simp
  have hproj : ∀ k, sourceSidProj (updateTrackParamsAux s1 t sa r) k
      = sourceSidProj s1 k := by
    intro k
    simp only [updateTrackParamsAux]
    rw [modifyTrack_sourceSidProj _ _ _ _ (hf1)]
    by_cases he : t.id % 2 = 0
    · rw [if_pos he, updateCrossfade_sourceSidProj,
        modifyTrack_sourceSidProj _ _ _ _ hf2]
    · rw [if_neg he, modifyTrack_sourceSidProj _ _ _ _ hf2]
  have hsrcs : (updateTrackParamsAux s1 t sa r).sources = s1.sources ∧
      (updateTrackParamsAux s1 t sa r).nextSid = s1.nextSid := by
    simp only [updateTrackParamsAux]
    by_cases he : t.id % 2 = 0
    · constructor
      · rw [(modifyTrack_sources _ _ _).1, if_pos he, (updateCrossfade_sources _ _).1,
          (modifyTrack_sources _ _ _).1]
      · rw [(modifyTrack_sources _ _ _).2, if_pos he, (updateCrossfade_sources _ _).2,
          (modifyTrack_sources _ _ _).2]
    · constructor
      · rw [(modifyTrack_sources _ _ _).1, if_neg he, (modifyTrack_sources _ _ _).1]
      · rw [(modifyTrack_sources _ _ _).2, if_neg he, (modifyTrack_sources _ _ _).2]
  refine ⟨?_, ?_, ?_⟩
  · rw [hsrcs.1]; exact hnd
  · intro r2 hr2
    rw [hsrcs.1] at hr2
    rw [hsrcs.2]
    exact hbd r2 hr2
  · intro r2 hr2 hstop
    rw [hsrcs.1] at hr2
    rw [hproj]
    exact href r2 hr2 hstop

theorem updateTrackParams_inv (st : EngineState) (t : TrackData) (mv : ℚ) (sa : Bool)
    (sid : Option ℕ) (r : ℚ) (h : Inv st) :
    Inv (updateTrackParams st t mv sa sid r) := by
  unfold updateTrackParams
  cases h0 : st.tracks t.id with
  | none => exact h
  | some n0 =>
    apply updateTrackParamsAux_inv
    split_ifs with h1 h2
    · exact playTrack_inv st t h
    · exact stopTrack_inv st t.id h
    · exact h

theorem applyOps_inv (st : EngineState) (ops : List EngineOp) (h : Inv st) :
    Inv (applyOps st ops) := by
  induction ops generalizing st with
  | nil => exact h
  | cons op rest ih =>
    have hstep : Inv (applyOp st op) := by
      cases op with
      | play t => exact playTrack_inv st t h
      | stop j => exact stopTrack_inv st j h
      | update t mv sa sid r => exact updateTrackParams_inv st t mv sa sid r h
    exact ih _ hstep

theorem length_le_one_of_nodup_of_all_eq {α : Type} {l : List α} (hnd : l.Nodup)
    (h : ∀ x ∈ l, ∀ y ∈ l, x = y) : l.length ≤ 1 := by
  cases l with
  | nil => simp
  | cons a tl =>
    cases tl with
    | nil => simp
    | cons b tl2 =>
      exfalso
      have hab : a = b := h a (by simp) b (by simp)
      rw [List.nodup_cons] at hnd
      exact hnd.1 (by simp [hab])

theorem inv_activeLedger_le_one (st : EngineState) (h : Inv st) (j : ℕ) :
    (activeLedger st j).length ≤ 1 := by
  obtain ⟨hnd, hbd, href⟩ := h
  have hsub : ((activeLedger st j).map (·.sid)).Sublist (st.sources.map (·.sid)) :=
    (List.filter_sublist _).map _
  have hnd2 := hnd.sublist hsub
  have hall : ∀ x ∈ (activeLedger st j).map (·.sid), sourceSidProj st j = some x := by
    intro x hx
    obtain ⟨r, hr, hxr⟩ := List.mem_map.mp hx
    have hrf := List.mem_filter.mp hr
    have hcond := hrf.2
    rw [Bool.and_eq_true] at hcond
    have htid : r.trackId = j := by
      have := hcond.1
      simpa using this
    have hstop : r.stopRequested = false := by
      have := hcond.2
      simpa using this
    have := href r hrf.1 hstop
    rw [htid] at this
    rw [this, hxr]
  have : ((activeLedger st j).map (·.sid)).length ≤ 1 := by
    apply length_le_one_of_nodup_of_all_eq hnd2
    intro x hx y hy
    have h1 := hall x hx
    have h2 := hall y hy
    rw [h1] at h2
    exact Option.some.inj h2
  simpa using this

/-- C10: `playTrack` is a no-op when the track id is uninitialized, when
no buffer is loaded, or when an active source already exists (so it never
creates a second concurrent source or restarts the existing one); and the
at-most-one-active-source discipline (`Inv`, which ties the ledger of
started-and-not-stopping sources one-to-one to the `source` references)
is preserved by every sequence of `playTrack` / `stopTrack` /
`updateTrackParams` calls, keeping each track's set of active sources at
size at most one. -/
theorem playTrack_single_source :
    (∀ (st : EngineState) (t : TrackData),
        st.tracks t.id = none → playTrack st t = st) ∧
    (∀ (st : EngineState) (t : TrackData) (n : TrackNodesM),
        st.tracks t.id = some n → t.buffer = false → playTrack st t = st) ∧
    (∀ (st : EngineState) (t : TrackData) (n : TrackNodesM) (s : SourceNode),
        st.tracks t.id = some n → n.source = some s → playTrack st t = st) ∧
    (∀ (st : EngineState) (ops : List EngineOp), Inv st → Inv (applyOps st ops)) ∧
    (∀ (st : EngineState) (ops : List EngineOp) (j : ℕ), Inv st →
        (activeLedger (applyOps st ops) j).length ≤ 1) := by
  refine ⟨?_, ?_, ?_, applyOps_inv, ?_⟩
  · intro st t h
    simp [playTrack, h]
  · intro st t n h hb
    simp [playTrack, h, hb]
  · intro st t n s h hs
    cases hb : t.buffer <;> simp [playTrack, h, hs, hb]
  · intro st ops j h
    exact inv_activeLedger_le_one _ (applyOps_inv st ops h) j

/-- Witness for C10: a play/stop sequence from a fresh two-track engine
keeps the invariant and at most one active source on track 0. -/
theorem playTrack_single_source_witness :
    Inv (applyOps engine2 [EngineOp.play track0, EngineOp.stop 0]) ∧
    (activeLedger (applyOps engine2 [EngineOp.play track0]) 0).length ≤ 1 := by
  have hinv : Inv engine2 := ⟨List.nodup_nil, by simp [engine2], by simp [engine2]⟩
  exact ⟨playTrack_single_source.2.2.2.1 engine2 _ hinv,
    playTrack_single_source.2.2.2.2 engine2 _ 0 hinv⟩

/-- C8: `stopTrack` on an already-stopped track — id not in the track
table, or active source `null` — returns the engine state unchanged (and,
being a total function, raises nothing); hence stopping twice in a row is
observationally the same as stopping once. -/
theorem stopTrack_idempotent (st : EngineState) (j : ℕ) :
    ((st.tracks j = none ∨ ∃ n, st.tracks j = some n ∧ n.source = none) →
      stopTrack st j = st) ∧
    stopTrack (stopTrack st j) j = stopTrack st j := by
  constructor
  · intro h
    rcases h with h | ⟨n, hn, hsrc⟩
    · simp [stopTrack, h]
    · simp [stopTrack, hn, hsrc]
  · cases hj : st.tracks j with
    | none => simp [stopTrack, hj]
    | some n =>
      cases hs : n.source with
      | none => simp [stopTrack, hj, hs]
      | some src =>
        simp [stopTrack, hj, hs, Function.update_same]

/-- Witness for C8: stopping an initialized, non-playing track is a
no-op. -/
theorem stopTrack_idempotent_witness :
    stopTrack engine2 0 = engine2 :=
  (stopTrack_idempotent engine2 0).1 (Or.inr ⟨nodesBare, rfl, rfl⟩)

/-- Witness for C6: with `feedbackSend = 0.7` and target id `2`, the
first feedback send is connected to the resolved target. -/
theorem updateFeedback_single_edge_witness :
    (updateFeedback track0 (fun _ => true) (fun _ => true) fbInit).conn
      = some (resolveFeedbackTarget track0) :=
  ((updateFeedback_single_edge track0 (fun _ => true) (fun _ => true) fbInit
    fbInit).2.2.2.2.1
    (by
      norm_num [updateFeedback, resolveFeedbackTarget, track0, fmAmount, fbInit]
      simp)).2.2

end Aetherloops
